import Mathlib

/-
A shallow embedding of the trading-system position/risk engine
(order_manager.py, pnl_monitor.py, risk_manager.py, position_tracker.py,
price_feed.py, trading_system.py) together with theorems about its claims.

Modelling conventions:
* Python floats are modelled as rationals; all the arithmetic in the source
  is plain +, -, *, /, min, max, abs.
* Python dicts (which preserve insertion order and have unique keys) are
  modelled as association lists with an insert-or-replace operation.
* Order objects are aliased between the order table and the active-order
  dict in the source; we keep the order table as the single store and the
  active set as a list of ids, which models the aliasing exactly.
* datetime.now() is modelled as an abstract tick (Nat) with second
  granularity, passed explicitly to each top-level operation; two calls in
  the same second share a tick, as the source's second-resolution
  timestamp format does.
* Order ids are "order_{timestamp}_{counter}" strings in the source; both
  components are digit groups in a fixed frame, so the string is faithfully
  modelled by the pair (stamp, counter).
-/

namespace Trading

/- Association-list maps, modelling Python dict semantics: lookup finds the
unique entry for a key, insert replaces in place or appends, erase removes
the key's entry. -/

def alistLookup {κ α : Type} [DecidableEq κ] : List (κ × α) → κ → Option α
  | [], _ => none
  | (k2, v) :: rest, k => if k2 = k then some v else alistLookup rest k

def alistInsert {κ α : Type} [DecidableEq κ] : List (κ × α) → κ → α → List (κ × α)
  | [], k, v => [(k, v)]
  | (k2, v2) :: rest, k, v =>
      if k2 = k then (k2, v) :: rest else (k2, v2) :: alistInsert rest k v

def alistErase {κ α : Type} [DecidableEq κ] : List (κ × α) → κ → List (κ × α)
  | [], _ => []
  | (k2, v2) :: rest, k =>
      if k2 = k then alistErase rest k else (k2, v2) :: alistErase rest k

/-- Removal of an element from a list of keys (dict-key/set removal). -/
def listRemove {κ : Type} [DecidableEq κ] : List κ → κ → List κ
  | [], _ => []
  | x :: rest, k => if x = k then listRemove rest k else x :: listRemove rest k

/-- Python set.add: insert unless already present (insertion order kept). -/
def setAdd {κ : Type} [DecidableEq κ] (l : List κ) (x : κ) : List κ :=
  if x ∈ l then l else l ++ [x]

section AlistLemmas

variable {κ α : Type} [DecidableEq κ]

@[simp] theorem alistLookup_nil (k : κ) : alistLookup ([] : List (κ × α)) k = none := rfl

theorem alistLookup_insert_self (l : List (κ × α)) (k : κ) (v : α) :
    alistLookup (alistInsert l k v) k = some v := by
  induction l with
  | nil => simp [alistInsert, alistLookup]
  | cons p rest ih =>
    obtain ⟨k2, v2⟩ := p
    by_cases h : k2 = k <;> simp [alistInsert, alistLookup, h, ih]

theorem alistLookup_insert_ne (l : List (κ × α)) (k : κ) (v : α) (k' : κ) (h : k' ≠ k) :
    alistLookup (alistInsert l k v) k' = alistLookup l k' := by
  have h2 : ¬ k = k' := fun hh => h hh.symm
  induction l with
  | nil => simp [alistInsert, alistLookup, h2]
  | cons p rest ih =>
    obtain ⟨k2, v2⟩ := p
    by_cases hk : k2 = k
    · subst hk
      simp [alistInsert, alistLookup, h2]
    · simp [alistInsert, alistLookup, hk, ih]

@[simp] theorem alistLookup_erase_self (l : List (κ × α)) (k : κ) :
    alistLookup (alistErase l k) k = none := by
  induction l with
  | nil => simp [alistErase]
  | cons p rest ih =>
    obtain ⟨k2, v2⟩ := p
    by_cases h : k2 = k <;> simp [alistErase, alistLookup, h, ih]

theorem alistLookup_erase_ne (l : List (κ × α)) (k k' : κ) (h : k' ≠ k) :
    alistLookup (alistErase l k) k' = alistLookup l k' := by
  have h2 : ¬ k = k' := fun hh => h hh.symm
  induction l with
  | nil => simp [alistErase]
  | cons p rest ih =>
    obtain ⟨k2, v2⟩ := p
    by_cases hk : k2 = k
    · subst hk
      simp [alistErase, alistLookup, h2, ih]
    · simp [alistErase, alistLookup, hk, ih]

theorem mem_listRemove_iff (l : List κ) (k x : κ) :
    x ∈ listRemove l k ↔ x ∈ l ∧ x ≠ k := by
  induction l with
  | nil => simp [listRemove]
  | cons y rest ih =>
    by_cases h : y = k
    · have hrw : listRemove (y :: rest) k = listRemove rest k := by
        simp [listRemove, h]
      rw [hrw, ih, List.mem_cons]
      constructor
      · rintro ⟨hx, hne⟩
        exact ⟨Or.inr hx, hne⟩
      · rintro ⟨hx | hx, hne⟩
        · exact absurd (hx.trans h) hne
        · exact ⟨hx, hne⟩
    · have hrw : listRemove (y :: rest) k = y :: listRemove rest k := by
        simp [listRemove, h]
      rw [hrw, List.mem_cons, ih, List.mem_cons]
      constructor
      · rintro (hx | ⟨hx, hne⟩)
        · refine ⟨Or.inl hx, ?_⟩
          rw [hx]
          exact h
        · exact ⟨Or.inr hx, hne⟩
      · rintro ⟨hx | hx, hne⟩
        · exact Or.inl hx
        · exact Or.inr ⟨hx, hne⟩

theorem not_mem_listRemove (l : List κ) (k : κ) : k ∉ listRemove l k := by
  intro h
  exact ((mem_listRemove_iff l k k).mp h).2 rfl

theorem setAdd_of_mem {l : List κ} {x : κ} (h : x ∈ l) : setAdd l x = l := by
  unfold setAdd
  simp [h]

theorem setAdd_of_not_mem {l : List κ} {x : κ} (h : x ∉ l) : setAdd l x = l ++ [x] := by
  unfold setAdd
  simp [h]

@[simp] theorem setAdd_nil (x : κ) : setAdd ([] : List κ) x = [x] := by
  simp [setAdd]

theorem mem_setAdd_iff (l : List κ) (x y : κ) :
    y ∈ setAdd l x ↔ y ∈ l ∨ y = x := by
  unfold setAdd
  by_cases h : x ∈ l
  · simp only [if_pos h]
    constructor
    · exact Or.inl
    · rintro (hy | hy)
      · exact hy
      · exact hy ▸ h
  · simp [if_neg h]

end AlistLemmas

/- ## Order data model (order_manager.py, lines 8-43) -/

inductive OrderType
  | market
  | limit
  | stop_loss
  | take_profit
deriving DecidableEq, Repr

inductive OrderSide
  | buy
  | sell
deriving DecidableEq, Repr

inductive OrderStatus
  | pending
  | open_
  | filled
  | cancelled
  | rejected
deriving DecidableEq, Repr

/-- Order ids are the strings "order_{timestamp}_{counter}" in the source;
both components are digit groups in a fixed frame, so the id string is
faithfully modelled by the pair of its components. -/
structure OrderId where
  stamp : Nat
  counter : Nat
deriving DecidableEq, Repr

structure Order where
  id : OrderId
  asset : String
  order_type : OrderType
  side : OrderSide
  size : ℚ
  price : Option ℚ
  status : OrderStatus
  timestamp : Nat
  fill_price : Option ℚ := none
  fill_time : Option Nat := none
  entry_price : Option ℚ := none
  related_orders : List OrderId := []
deriving DecidableEq, Repr

/-- Mirrors Order.__post_init__: a market order copies its price into
entry_price at construction time. -/
def Order.post_init (o : Order) : Order :=
  if o.order_type = OrderType.market then { o with entry_price := o.price } else o

/- ## OrderManager (order_manager.py, lines 45-233) -/

/-- The keys config["stops"]["stop_loss_percent"] and
config["stops"]["take_profit_percent"]; the source raises KeyError when
they are absent, so they are modelled as required fields. -/
structure StopsConfig where
  stop_loss_percent : ℚ
  take_profit_percent : ℚ
deriving DecidableEq, Repr

structure Fill where
  price : ℚ
  time : Nat
  size : ℚ
deriving DecidableEq, Repr

/-- OrderManager state.  In the source the dict self.active_orders holds
the same Order objects as self.orders; that aliasing is modelled by
keeping only the ids in the active set and reading the single order table
through them. -/
structure OMState where
  config : StopsConfig
  orders : List (OrderId × Order)
  active_orders : List OrderId
  fills : List (OrderId × List Fill)
  order_counter : Nat
deriving DecidableEq, Repr

namespace OMState

/-- Mirrors OrderManager._generate_order_id.  The datetime.now() call is
the `now` tick argument. -/
def generate_order_id (s : OMState) (now : Nat) : OMState × OrderId :=
  ({ s with order_counter := s.order_counter + 1 },
   { stamp := now, counter := s.order_counter + 1 })

/-- Mirrors OrderManager.create_market_order.  The attach_stops argument
is accepted and ignored, exactly as in the source. -/
def create_market_order (s : OMState) (asset : String) (side : OrderSide)
    (size : ℚ) (attach_stops : Bool) (now : Nat) : OMState × Order :=
  let g := generate_order_id s now
  let s1 := g.1
  let order_id := g.2
  let order : Order := Order.post_init
    { id := order_id, asset := asset, order_type := OrderType.market, side := side,
      size := size, price := none, status := OrderStatus.pending, timestamp := now }
  ({ s1 with orders := alistInsert s1.orders order_id order,
             active_orders := setAdd s1.active_orders order_id }, order)

/-- Mirrors OrderManager.create_limit_order. -/
def create_limit_order (s : OMState) (asset : String) (side : OrderSide)
    (size : ℚ) (price : ℚ) (now : Nat) : OMState × Order :=
  let g := generate_order_id s now
  let s1 := g.1
  let order_id := g.2
  let order : Order := Order.post_init
    { id := order_id, asset := asset, order_type := OrderType.limit, side := side,
      size := size, price := some price, status := OrderStatus.pending, timestamp := now }
  ({ s1 with orders := alistInsert s1.orders order_id order,
             active_orders := setAdd s1.active_orders order_id }, order)

/-- Mirrors OrderManager.create_stop_order.  The source's truthiness test
"if parent_order_id:" treats both None and the empty string as absent;
the Option models None, and an empty-string id has no counterpart among
the structured ids, so it is subsumed by none. -/
def create_stop_order (s : OMState) (asset : String) (side : OrderSide)
    (size : ℚ) (stop_price : ℚ) (order_type : OrderType)
    (parent_order_id : Option OrderId) (now : Nat) : OMState × Order :=
  let g := generate_order_id s now
  let s1 := g.1
  let order_id := g.2
  let base : Order := Order.post_init
    { id := order_id, asset := asset, order_type := order_type, side := side,
      size := size, price := some stop_price, status := OrderStatus.pending,
      timestamp := now }
  let linked : OMState × Order :=
    match parent_order_id with
    | none => (s1, base)
    | some pid =>
      let child := { base with related_orders := setAdd base.related_orders pid }
      match alistLookup s1.orders pid with
      | some parent =>
        let parent2 :=
          { parent with related_orders := setAdd parent.related_orders order_id }
        ({ s1 with orders := alistInsert s1.orders pid parent2 }, child)
      | none => (s1, child)
  let s2 := linked.1
  let order := linked.2
  ({ s2 with orders := alistInsert s2.orders order_id order,
             active_orders := setAdd s2.active_orders order_id }, order)

/-- Appends a fill record to the per-order fill ledger
(order_manager.py, lines 150-157). -/
def fillsAppend (l : List (OrderId × List Fill)) (k : OrderId) (f : Fill) :
    List (OrderId × List Fill) :=
  match alistLookup l k with
  | none => alistInsert l k [f]
  | some fs => alistInsert l k (fs ++ [f])

/-- Adds rid to the related_orders of the table entry oid; models the
source's mutation of the aliased Order object (the object is always in
the table at these call sites, so the none branch is unreachable there). -/
def relAdd (s : OMState) (oid rid : OrderId) : OMState :=
  match alistLookup s.orders oid with
  | none => s
  | some o =>
    let o2 := { o with related_orders := setAdd o.related_orders rid }
    { s with orders := alistInsert s.orders oid o2 }

/-- Mirrors OrderManager._attach_stop_orders.  The guard
"if not parent_order.fill_price:" is Python truthiness: both None and 0.0
skip the attachment.  The two protective orders are returned by id (the
source returns the aliased objects). -/
def attach_stop_orders (s : OMState) (parent_order : Order) (now : Nat) :
    OMState × List OrderId :=
  match parent_order.fill_price with
  | none => (s, [])
  | some fp =>
    if fp = 0 then (s, [])
    else
      let stop_loss_pct := s.config.stop_loss_percent
      let take_profit_pct := s.config.take_profit_percent
      let stop_loss_price := fp * (1 - stop_loss_pct)
      let take_profit_price := fp * (1 + take_profit_pct)
      let r1 := create_stop_order s parent_order.asset OrderSide.sell
        parent_order.size stop_loss_price OrderType.stop_loss
        (some parent_order.id) now
      let s1 := r1.1
      let stop_loss := r1.2
      let r2 := create_stop_order s1 parent_order.asset OrderSide.sell
        parent_order.size take_profit_price OrderType.take_profit
        (some parent_order.id) now
      let s2 := r2.1
      let take_profit := r2.2
      let s3 := relAdd s2 stop_loss.id take_profit.id
      let s4 := relAdd s3 take_profit.id stop_loss.id
      let s5 := relAdd s4 parent_order.id stop_loss.id
      let s6 := relAdd s5 parent_order.id take_profit.id
      (s6, [stop_loss.id, take_profit.id])

/-- Mirrors OrderManager.process_fill.  "fill_time or datetime.now()" is
modelled by Option.getD with the call's tick. -/
def process_fill (s : OMState) (order_id : OrderId) (fill_price : ℚ)
    (fill_time : Option Nat) (now : Nat) : OMState × Bool :=
  match alistLookup s.orders order_id with
  | none => (s, false)
  | some order =>
    if order.status ≠ OrderStatus.open_ then (s, false)
    else
      let ft := fill_time.getD now
      let order := { order with status := OrderStatus.filled,
                                fill_price := some fill_price,
                                fill_time := some ft }
      let s := { s with orders := alistInsert s.orders order_id order,
                        active_orders := listRemove s.active_orders order_id }
      let f : Fill := { price := fill_price, time := ft, size := order.size }
      let s := { s with fills := fillsAppend s.fills order_id f }
      let s := if order.order_type = OrderType.market
        then (attach_stop_orders s order now).1 else s
      (s, true)

/-- The cascade loop of OrderManager.cancel_order (lines 213-218); the
source iterates the related set, whose order is unspecified, and each
step is independent of the others. -/
def cancelRelated (s : OMState) : List OrderId → OMState
  | [] => s
  | rid :: rest =>
    let s' :=
      match alistLookup s.orders rid with
      | none => s
      | some ro =>
        if ro.status = OrderStatus.pending ∨ ro.status = OrderStatus.open_ then
          let ro2 := { ro with status := OrderStatus.cancelled }
          { s with orders := alistInsert s.orders rid ro2,
                   active_orders := listRemove s.active_orders rid }
        else s
    cancelRelated s' rest

/-- Mirrors OrderManager.cancel_order. -/
def cancel_order (s : OMState) (order_id : OrderId) : OMState × Bool :=
  match alistLookup s.orders order_id with
  | none => (s, false)
  | some order =>
    if order.status = OrderStatus.pending ∨ order.status = OrderStatus.open_ then
      let order := { order with status := OrderStatus.cancelled }
      let s := { s with orders := alistInsert s.orders order_id order,
                        active_orders := listRemove s.active_orders order_id }
      (cancelRelated s order.related_orders, true)
    else (s, false)

/-- Mirrors OrderManager.get_order. -/
def get_order (s : OMState) (order_id : OrderId) : Option Order :=
  alistLookup s.orders order_id

/-- Mirrors OrderManager.get_active_orders.  The values of the active dict
are read through the order table (aliasing); "if asset:" is Python
truthiness, so an empty-string filter is ignored. -/
def get_active_orders (s : OMState) (asset : Option String) : List Order :=
  let orders := s.active_orders.filterMap (fun oid => alistLookup s.orders oid)
  match asset with
  | some a => if a ≠ "" then orders.filter (fun o => o.asset = a) else orders
  | none => orders

/-- Mirrors OrderManager.get_fills. -/
def get_fills (s : OMState) (order_id : OrderId) : List Fill :=
  (alistLookup s.fills order_id).getD []

end OMState

/- ## PnLMonitor (pnl_monitor.py) -/

/-- The config["alert_thresholds"] sub-dict; the source reads each key
with .get and a default, so absent keys are Option none. -/
structure PnlConfig where
  stop_loss : Option ℚ
  profit_target : Option ℚ
deriving DecidableEq, Repr

/-- The per-asset snapshot dict stored by PnLMonitor.update_position
(pnl_monitor.py, lines 19-24). -/
structure Snapshot where
  entry_price : Option ℚ
  current_price : ℚ
  size : ℚ
  side : OrderSide
deriving DecidableEq, Repr

structure PnLAlert where
  alert_type : String
  message : String
deriving DecidableEq, Repr

structure PnLState where
  config : PnlConfig
  positions : List (String × Snapshot)
deriving DecidableEq, Repr

/-- The P&L fraction computed in pnl_monitor.py, lines 28-30: the buy-side
formula with the sign flipped for the sell side. -/
def side_adjusted_pnl_pct (entry current : ℚ) (side : OrderSide) : ℚ :=
  let p := (current - entry) / entry
  if side = OrderSide.sell then -p else p

/-- The summary dict of PnLMonitor.get_performance_summary. -/
structure PerfSummary where
  current_pnl : ℚ
  pnl_percent : ℚ
  exposure : ℚ
deriving DecidableEq, Repr

namespace PnLState

/-- Mirrors PnLMonitor.update_position.  The guard "if order.entry_price:"
is Python truthiness, so both None and 0.0 skip the P&L computation.  The
formatted numeric detail of the alert messages is not modelled. -/
def update_position (s : PnLState) (order : Order) (current_price : ℚ) :
    PnLState × List PnLAlert :=
  let snap : Snapshot :=
    { entry_price := order.entry_price, current_price := current_price,
      size := order.size, side := order.side }
  let s := { s with positions := alistInsert s.positions order.asset snap }
  let alerts : List PnLAlert :=
    match order.entry_price with
    | none => []
    | some e =>
      if e = 0 then []
      else
        let pnl_pct := side_adjusted_pnl_pct e current_price order.side
        if pnl_pct ≤ -((s.config.stop_loss).getD (1/100)) then
          [{ alert_type := "stop_loss", message := "Stop loss triggered" }]
        else if pnl_pct ≥ (s.config.profit_target).getD (1/50) then
          [{ alert_type := "take_profit", message := "Take profit triggered" }]
        else []
  (s, alerts)

/-- Mirrors PnLMonitor.get_performance_summary: empty dict (none) for an
unknown asset.  When the stored entry price is None the source raises a
TypeError on the subtraction, and when it is 0 the pnl_percent division
raises ZeroDivisionError before the summary dict is built; both crashes
are mapped to none. -/
def get_performance_summary (s : PnLState) (asset : String) : Option PerfSummary :=
  match alistLookup s.positions asset with
  | none => none
  | some position =>
    match position.entry_price with
    | none => none
    | some entry_price =>
      if entry_price = 0 then none
      else
        let price_change := position.current_price - entry_price
        let price_change :=
          if position.side = OrderSide.sell then -price_change else price_change
        some { current_pnl := price_change * position.size,
               pnl_percent := (price_change / entry_price) * 100,
               exposure := position.current_price * position.size }

end PnLState

/- ## RiskManager (risk_manager.py) -/

/-- The config["risk_limits"] keys the core reads.  The source defaults an
absent key to float('inf'); every modelled configuration supplies both
limits, as the claims under verification do. -/
structure RiskLimits where
  max_position_size : ℚ
  max_portfolio_exposure : ℚ
deriving DecidableEq, Repr

structure RiskConfig where
  risk_limits : RiskLimits
  base_volatility : Option ℚ
  w_volatility : Option ℚ
  w_correlation : Option ℚ
deriving DecidableEq, Repr

structure RiskProfile where
  current_volatility : ℚ
  risk_score : ℚ
  position_limit : ℚ
deriving DecidableEq, Repr

structure RiskAlert where
  alert_type : String
  message : String
deriving DecidableEq, Repr

namespace RiskManager

/-- The portfolio-exposure sum in risk_manager.py, lines 29-31 (and again
lines 53-57): snapshot current_price times size over all P&L snapshots. -/
def currentExposure (pnl : PnLState) : ℚ :=
  (pnl.positions.map (fun p => p.2.current_price * p.2.size)).sum

/-- Mirrors RiskManager.calculate_position_size.  The asset argument is
unused in the source too. -/
def calculate_position_size (cfg : RiskConfig) (pnl : PnLState) (asset : String)
    (current_price : ℚ) : ℚ :=
  let max_position_size := cfg.risk_limits.max_position_size
  let max_exposure := cfg.risk_limits.max_portfolio_exposure
  let buffer_factor : ℚ := 49/50
  let adjusted_max_exposure := max_exposure * buffer_factor
  let current_exposure := currentExposure pnl
  let remaining_exposure := adjusted_max_exposure - current_exposure
  if remaining_exposure ≤ 0 then 0
  else
    let max_units := (remaining_exposure / current_price) * buffer_factor
    min max_units max_position_size

/-- Mirrors RiskManager.check_portfolio_risk.  The formatted numbers of
the alert message are not modelled. -/
def check_portfolio_risk (cfg : RiskConfig) (pnl : PnLState) : List RiskAlert :=
  let total_exposure := currentExposure pnl
  if total_exposure ≥ cfg.risk_limits.max_portfolio_exposure then
    [{ alert_type := "exposure_limit", message := "Portfolio exposure at or exceeds limit" }]
  else []

/-- Mirrors RiskManager._get_asset_volatility.  "if metrics:" is the
truthiness of the summary dict, i.e. whether the asset has a snapshot. -/
def get_asset_volatility (cfg : RiskConfig) (pnl : PnLState) (asset : String) : ℚ :=
  let base_vol := (cfg.base_volatility).getD (1/50)
  match PnLState.get_performance_summary pnl asset with
  | some metrics => max base_vol (|metrics.pnl_percent| / 100)
  | none => base_vol

/-- Mirrors RiskManager.update_risk_profile. -/
def update_risk_profile (cfg : RiskConfig) (pnl : PnLState) (asset : String) :
    RiskProfile :=
  let volatility := get_asset_volatility cfg pnl asset
  let vol_weight := (cfg.w_volatility).getD (3/5)
  let correlation_weight := (cfg.w_correlation).getD (2/5)
  let pnl_factor : ℚ :=
    match PnLState.get_performance_summary pnl asset with
    | some metrics =>
      if metrics.pnl_percent < 0 then |metrics.pnl_percent| * (1/10) else 0
    | none => 0
  let risk_score := volatility * vol_weight + pnl_factor * correlation_weight
  let max_size := cfg.risk_limits.max_position_size
  let position_limit := max_size * (1 - risk_score)
  { current_volatility := volatility, risk_score := risk_score,
    position_limit := position_limit }

end RiskManager

/- ## PriceFeed (price_feed.py) and PositionTracker (position_tracker.py) -/

structure PriceUpdate where
  asset : String
  price : ℚ
  bid : Option ℚ := none
  ask : Option ℚ := none
  volume : Option ℚ := none
  timestamp : Option Nat := none
deriving DecidableEq, Repr

/-- Price feed registry state.  Callbacks are opaque comparable handles
(the source keys them in per-asset sets), modelled by Nat tags. -/
structure FeedState where
  subscribers : List (String × List Nat)
  last_prices : List (String × PriceUpdate)
deriving DecidableEq, Repr

namespace FeedState

/-- Mirrors PriceFeed.subscribe. -/
def subscribe (s : FeedState) (asset : String) (callback : Nat) : FeedState :=
  match alistLookup s.subscribers asset with
  | none => { s with subscribers := alistInsert s.subscribers asset [callback] }
  | some set => { s with subscribers := alistInsert s.subscribers asset (setAdd set callback) }

/-- Mirrors PriceFeed.unsubscribe: removes the callback when present and
drops the asset entry when its subscriber set becomes empty. -/
def unsubscribe (s : FeedState) (asset : String) (callback : Nat) : FeedState :=
  match alistLookup s.subscribers asset with
  | none => s
  | some set =>
    if callback ∈ set then
      let set2 := listRemove set callback
      if set2 = [] then { s with subscribers := alistErase s.subscribers asset }
      else { s with subscribers := alistInsert s.subscribers asset set2 }
    else s

end FeedState

/-- Tracker-view position record (models.py, Position). -/
structure Position where
  asset : String
  size : ℚ
  entry_price : ℚ
  current_price : ℚ
  timestamp : Nat
  stop_loss : Option ℚ := none
  take_profit : Option ℚ := none
deriving DecidableEq, Repr

/-- The trigger branch taken by the tracker's price handler: the source
distinguishes the two removals only by the log line it emits. -/
inductive StopTrigger
  | stopLossFired
  | takeProfitFired
deriving DecidableEq, Repr

structure TrackerState where
  positions : List (String × Position)
  position_pnl : List (String × ℚ)
  feed : FeedState
deriving DecidableEq, Repr

namespace TrackerState

/-- The tracker subscribes the bound method self._handle_price_update; one
fixed handle models it. -/
def trackerHandler : Nat := 0

/-- Mirrors PositionTracker.add_position. -/
def add_position (s : TrackerState) (position : Position) : TrackerState :=
  let s := { s with positions := alistInsert s.positions position.asset position,
                    position_pnl := alistInsert s.position_pnl position.asset 0 }
  { s with feed := s.feed.subscribe position.asset trackerHandler }

/-- Mirrors PositionTracker.remove_position. -/
def remove_position (s : TrackerState) (asset : String) : TrackerState :=
  if (alistLookup s.positions asset).isSome then
    let s := { s with positions := alistErase s.positions asset,
                      position_pnl := alistErase s.position_pnl asset }
    { s with feed := s.feed.unsubscribe asset trackerHandler }
  else s

/-- Mirrors PositionTracker._calculate_pnl; at entry_price = 0 the
division raises ZeroDivisionError, modelled as none. -/
def calculate_pnl (position : Position) : Option ℚ :=
  if position.entry_price = 0 then none
  else some (((position.current_price - position.entry_price) /
    position.entry_price) * 100)

/-- Mirrors PositionTracker._handle_price_update.  The two stop checks use
Python truthiness on the trigger prices: an unset (None) or zero trigger
is skipped.  The returned tag records which trigger branch fired (the
source logs and returns).  When the P&L computation raises (zero entry
price), the exception escapes the handler and is swallowed by
PriceFeed.publish_update's per-callback try/except; by then the aliased
Position object's current_price has already been mutated, but the pnl
write, the stop checks and any removal never happen. -/
def handle_price_update (s : TrackerState) (update : PriceUpdate) :
    TrackerState × Option StopTrigger :=
  match alistLookup s.positions update.asset with
  | none => (s, none)
  | some position =>
    let position := { position with current_price := update.price }
    let s := { s with positions := alistInsert s.positions update.asset position }
    match calculate_pnl position with
    | none => (s, none)
    | some pnl =>
      let s := { s with position_pnl := alistInsert s.position_pnl position.asset pnl }
      let stop_hit : Bool :=
        match position.stop_loss with
        | some sl => decide (sl ≠ 0) && decide (update.price ≤ sl)
        | none => false
      if stop_hit then (remove_position s position.asset, some StopTrigger.stopLossFired)
      else
        let take_hit : Bool :=
          match position.take_profit with
          | some tp => decide (tp ≠ 0) && decide (update.price ≥ tp)
          | none => false
        if take_hit then (remove_position s position.asset, some StopTrigger.takeProfitFired)
        else (s, none)

end TrackerState

/- ## TradingSystem orchestrator (trading_system.py) -/

/-- The per-asset active-position dict entry (trading_system.py,
lines 53-58). -/
structure ActivePos where
  order_id : OrderId
  side : OrderSide
  size : ℚ
  entry_price : ℚ
deriving DecidableEq, Repr

structure TSState where
  pnl : PnLState
  om : OMState
  risk_config : RiskConfig
  active_positions : List (String × ActivePos)
  account_balance : ℚ
deriving DecidableEq, Repr

namespace TSState

/-- Mirrors TradingSystem.open_position.  The source sets entry_price and
status on the order object returned by create_market_order; the object is
aliased in the order table, so the mutation is modelled as a table write.
The final P&L update reads the same aliased object, i.e. the table entry
after the fill. -/
def open_position (s : TSState) (asset : String) (side : OrderSide) (price : ℚ)
    (attach_stops : Bool) (now : Nat) : TSState × Option Order :=
  let risk_alerts := RiskManager.check_portfolio_risk s.risk_config s.pnl
  if risk_alerts.any (fun a => a.alert_type = "exposure_limit") then (s, none)
  else
    let size := RiskManager.calculate_position_size s.risk_config s.pnl asset price
    if size ≤ 0 then (s, none)
    else
      let r := s.om.create_market_order asset side size attach_stops now
      let order := { r.2 with entry_price := some price, status := OrderStatus.open_ }
      let om := { r.1 with orders := alistInsert r.1.orders order.id order }
      let om := (om.process_fill order.id price none now).1
      let s := { s with om := om,
                        active_positions := alistInsert s.active_positions asset
                          { order_id := order.id, side := side, size := size,
                            entry_price := price } }
      let filled := (s.om.get_order order.id).getD order
      let r3 := s.pnl.update_position filled price
      ({ s with pnl := r3.1 }, some filled)

/-- The cancellation loop of TradingSystem.close_position (lines 92-94):
iterates a snapshot list of the asset's active orders and cancels each
stop-loss/take-profit order. -/
def cancelStops (om : OMState) : List Order → OMState
  | [] => om
  | o :: rest =>
    let om2 :=
      if o.order_type = OrderType.stop_loss ∨ o.order_type = OrderType.take_profit
      then (om.cancel_order o.id).1 else om
    cancelStops om2 rest

/-- Mirrors TradingSystem.close_position. -/
def close_position (s : TSState) (asset : String) (price : ℚ) (now : Nat) :
    TSState × Option Order :=
  match alistLookup s.active_positions asset with
  | none => (s, none)
  | some position =>
    let close_side :=
      if position.side = OrderSide.buy then OrderSide.sell else OrderSide.buy
    let r := s.om.create_market_order asset close_side position.size false now
    let order :=
      { r.2 with entry_price := some position.entry_price, status := OrderStatus.open_ }
    let om := { r.1 with orders := alistInsert r.1.orders order.id order }
    let om := (om.process_fill order.id price none now).1
    let om := cancelStops om (om.get_active_orders (some asset))
    let s := { s with om := om,
                      active_positions := alistErase s.active_positions asset }
    let filled := (s.om.get_order order.id).getD order
    let r3 := s.pnl.update_position filled price
    ({ s with pnl := r3.1 }, some filled)

/-- The alert loop of TradingSystem.update_position (lines 123-130). -/
def handleAlerts (s : TSState) (asset : String) (current_price : ℚ) (now : Nat) :
    List PnLAlert → TSState
  | [] => s
  | alert :: rest =>
    let s2 :=
      if alert.alert_type = "stop_loss" then (s.close_position asset current_price now).1
      else s
    handleAlerts s2 asset current_price now rest

/-- Mirrors TradingSystem.update_position. -/
def update_position (s : TSState) (asset : String) (current_price : ℚ) (now : Nat) :
    TSState × List PnLAlert :=
  match alistLookup s.active_positions asset with
  | none => (s, [])
  | some position =>
    match s.om.get_order position.order_id with
    | none => (s, [])
    | some order =>
      let r := s.pnl.update_position order current_price
      let s := { s with pnl := r.1 }
      let s := handleAlerts s asset current_price now r.2
      (s, r.2)

end TSState

/- ## Theorems -/

open OMState TSState RiskManager PnLState TrackerState FeedState

/-- Characterization of a successful fill of a market order at a nonzero
price: the fill succeeds, exactly the stop-loss/take-profit pair is
synthesized (fresh ids counter+1 and counter+2), the three orders are
linked as stated, and every other table entry, the fills ledger and the
active set change only as described. -/
theorem process_fill_market_spec (s : OMState) (oid : OrderId) (o : Order)
    (P : ℚ) (ft : Option Nat) (now : Nat) (slid tpid : OrderId)
    (hslid : slid = { stamp := now, counter := s.order_counter + 1 })
    (htpid : tpid = { stamp := now, counter := s.order_counter + 1 + 1 })
    (h : alistLookup s.orders oid = some o)
    (hst : o.status = OrderStatus.open_)
    (hty : o.order_type = OrderType.market)
    (hP : P ≠ 0)
    (hid : o.id = oid)
    (h1 : slid ≠ oid) (h2 : tpid ≠ oid) :
    (process_fill s oid P ft now).2 = true ∧
    (process_fill s oid P ft now).1.config = s.config ∧
    (process_fill s oid P ft now).1.order_counter = s.order_counter + 1 + 1 ∧
    (process_fill s oid P ft now).1.fills =
      fillsAppend s.fills oid { price := P, time := ft.getD now, size := o.size } ∧
    (process_fill s oid P ft now).1.active_orders =
      setAdd (setAdd (listRemove s.active_orders oid) slid) tpid ∧
    alistLookup (process_fill s oid P ft now).1.orders slid =
      some { id := slid, asset := o.asset, order_type := OrderType.stop_loss,
             side := OrderSide.sell, size := o.size,
             price := some (P * (1 - s.config.stop_loss_percent)),
             status := OrderStatus.pending, timestamp := now,
             related_orders := [oid, tpid] } ∧
    alistLookup (process_fill s oid P ft now).1.orders tpid =
      some { id := tpid, asset := o.asset, order_type := OrderType.take_profit,
             side := OrderSide.sell, size := o.size,
             price := some (P * (1 + s.config.take_profit_percent)),
             status := OrderStatus.pending, timestamp := now,
             related_orders := [oid, slid] } ∧
    alistLookup (process_fill s oid P ft now).1.orders oid =
      some { o with status := OrderStatus.filled, fill_price := some P,
                    fill_time := some (ft.getD now),
                    related_orders := setAdd (setAdd o.related_orders slid) tpid } ∧
    (∀ k : OrderId, k ≠ oid → k ≠ slid → k ≠ tpid →
      alistLookup (process_fill s oid P ft now).1.orders k = alistLookup s.orders k) := by
  subst hslid htpid
  have hne : ({ stamp := now, counter := s.order_counter + 1 } : OrderId) ≠
      { stamp := now, counter := s.order_counter + 1 + 1 } := by
    intro hcontra
    have hc := congrArg OrderId.counter hcontra
    simp at hc
  have h1s := Ne.symm h1
  have h2s := Ne.symm h2
  have hnes := Ne.symm hne
  refine ⟨?_, ?_, ?_, ?_, ?_, ?_, ?_, ?_, ?_⟩
  · simp [process_fill, attach_stop_orders, create_stop_order, generate_order_id,
      relAdd, Order.post_init, h, hst, hty, hP, hid, h1, h2, hne, h1s, h2s, hnes,
      alistLookup_insert_self, alistLookup_insert_ne, mem_setAdd_iff, setAdd_of_mem,
      setAdd_of_not_mem]
  · simp [process_fill, attach_stop_orders, create_stop_order, generate_order_id,
      relAdd, Order.post_init, h, hst, hty, hP, hid, h1, h2, hne, h1s, h2s, hnes,
      alistLookup_insert_self, alistLookup_insert_ne, mem_setAdd_iff, setAdd_of_mem,
      setAdd_of_not_mem]
  · simp [process_fill, attach_stop_orders, create_stop_order, generate_order_id,
      relAdd, Order.post_init, h, hst, hty, hP, hid, h1, h2, hne, h1s, h2s, hnes,
      alistLookup_insert_self, alistLookup_insert_ne, mem_setAdd_iff, setAdd_of_mem,
      setAdd_of_not_mem]
  · simp [process_fill, attach_stop_orders, create_stop_order, generate_order_id,
      relAdd, Order.post_init, h, hst, hty, hP, hid, h1, h2, hne, h1s, h2s, hnes,
      alistLookup_insert_self, alistLookup_insert_ne, mem_setAdd_iff, setAdd_of_mem,
      setAdd_of_not_mem]
  · simp [process_fill, attach_stop_orders, create_stop_order, generate_order_id,
      relAdd, Order.post_init, h, hst, hty, hP, hid, h1, h2, hne, h1s, h2s, hnes,
      alistLookup_insert_self, alistLookup_insert_ne, mem_setAdd_iff, setAdd_of_mem,
      setAdd_of_not_mem]
  · simp [process_fill, attach_stop_orders, create_stop_order, generate_order_id,
      relAdd, Order.post_init, h, hst, hty, hP, hid, h1, h2, hne, h1s, h2s, hnes,
      alistLookup_insert_self, alistLookup_insert_ne, mem_setAdd_iff, setAdd_of_mem,
      setAdd_of_not_mem]
  · simp [process_fill, attach_stop_orders, create_stop_order, generate_order_id,
      relAdd, Order.post_init, h, hst, hty, hP, hid, h1, h2, hne, h1s, h2s, hnes,
      alistLookup_insert_self, alistLookup_insert_ne, mem_setAdd_iff, setAdd_of_mem,
      setAdd_of_not_mem]
  · simp [process_fill, attach_stop_orders, create_stop_order, generate_order_id,
      relAdd, Order.post_init, h, hst, hty, hP, hid, h1, h2, hne, h1s, h2s, hnes,
      alistLookup_insert_self, alistLookup_insert_ne, mem_setAdd_iff, setAdd_of_mem,
      setAdd_of_not_mem]
  · intro k hk1 hk2 hk3
    simp [process_fill, attach_stop_orders, create_stop_order, generate_order_id,
      relAdd, Order.post_init, h, hst, hty, hP, hid, h1, h2, hne, h1s, h2s, hnes, hk1, hk2, hk3,
      alistLookup_insert_self, alistLookup_insert_ne, mem_setAdd_iff, setAdd_of_mem,
      setAdd_of_not_mem]

/-- C3: processFill and cancelOrder on an unknown order id, or on a known
order whose status is ineligible (not open for processFill; neither
pending nor open for cancelOrder), return false and leave the whole
manager state unchanged. -/
theorem reject_unknown_or_ineligible_no_mutation (s : OMState) (oid : OrderId)
    (fp : ℚ) (ft : Option Nat) (now : Nat) :
    ((alistLookup s.orders oid = none ∨
      (∃ o, alistLookup s.orders oid = some o ∧ o.status ≠ OrderStatus.open_)) →
      process_fill s oid fp ft now = (s, false)) ∧
    ((alistLookup s.orders oid = none ∨
      (∃ o, alistLookup s.orders oid = some o ∧ o.status ≠ OrderStatus.pending ∧
        o.status ≠ OrderStatus.open_)) →
      cancel_order s oid = (s, false)) := by
  constructor
  · rintro (hnone | ⟨o, hsome, hstatus⟩)
    · simp [process_fill, hnone]
    · simp [process_fill, hsome, hstatus]
  · rintro (hnone | ⟨o, hsome, hs1, hs2⟩)
    · simp [cancel_order, hnone]
    · simp [cancel_order, hsome, hs1, hs2]

/-- A sample stops configuration: 2% stop loss, 3% take profit. -/
def sampleConfig : StopsConfig :=
  { stop_loss_percent := 1/50, take_profit_percent := 3/100 }

/-- An empty order-manager state. -/
def emptyOM : OMState :=
  { config := sampleConfig, orders := [], active_orders := [], fills := [],
    order_counter := 0 }

/-- Witness for C3 at a concrete state: an unknown id is rejected by both
operations without mutation. -/
theorem reject_unknown_or_ineligible_no_mutation_witness :
    process_fill emptyOM ⟨1, 1⟩ 100 none 5 = (emptyOM, false) ∧
    cancel_order emptyOM ⟨1, 1⟩ = (emptyOM, false) := by
  have h := reject_unknown_or_ineligible_no_mutation emptyOM ⟨1, 1⟩ 100 none 5
  exact ⟨h.1 (Or.inl rfl), h.2 (Or.inl rfl)⟩

/-- C1 (amended: the fill price must be nonzero — the source skips the
attachment when the recorded fill price is falsy, i.e. 0.0): a market
order in open status filled via processFill at price P synthesizes
exactly two protective sell orders, a stop-loss at P*(1-s) and a
take-profit at P*(1+t), both with the parent's size, both pending and
active, mutually linked to each other and to the parent, whose
related_orders gains both protective ids; no other table entry changes. -/
theorem processFill_market_attaches_protective_pair (s : OMState) (oid : OrderId)
    (o : Order) (P : ℚ) (ft : Option Nat) (now : Nat)
    (h : alistLookup s.orders oid = some o)
    (hst : o.status = OrderStatus.open_)
    (hty : o.order_type = OrderType.market)
    (hP : P ≠ 0)
    (hid : o.id = oid)
    (h1 : ({ stamp := now, counter := s.order_counter + 1 } : OrderId) ≠ oid)
    (h2 : ({ stamp := now, counter := s.order_counter + 1 + 1 } : OrderId) ≠ oid) :
    (process_fill s oid P ft now).2 = true ∧
    alistLookup (process_fill s oid P ft now).1.orders
        { stamp := now, counter := s.order_counter + 1 } =
      some { id := { stamp := now, counter := s.order_counter + 1 },
             asset := o.asset, order_type := OrderType.stop_loss,
             side := OrderSide.sell, size := o.size,
             price := some (P * (1 - s.config.stop_loss_percent)),
             status := OrderStatus.pending, timestamp := now,
             related_orders := [oid, { stamp := now, counter := s.order_counter + 1 + 1 }] } ∧
    alistLookup (process_fill s oid P ft now).1.orders
        { stamp := now, counter := s.order_counter + 1 + 1 } =
      some { id := { stamp := now, counter := s.order_counter + 1 + 1 },
             asset := o.asset, order_type := OrderType.take_profit,
             side := OrderSide.sell, size := o.size,
             price := some (P * (1 + s.config.take_profit_percent)),
             status := OrderStatus.pending, timestamp := now,
             related_orders := [oid, { stamp := now, counter := s.order_counter + 1 }] } ∧
    ({ stamp := now, counter := s.order_counter + 1 } : OrderId) ∈
      (process_fill s oid P ft now).1.active_orders ∧
    ({ stamp := now, counter := s.order_counter + 1 + 1 } : OrderId) ∈
      (process_fill s oid P ft now).1.active_orders ∧
    (∃ po, alistLookup (process_fill s oid P ft now).1.orders oid = some po ∧
      po.status = OrderStatus.filled ∧ po.fill_price = some P ∧
      ({ stamp := now, counter := s.order_counter + 1 } : OrderId) ∈ po.related_orders ∧
      ({ stamp := now, counter := s.order_counter + 1 + 1 } : OrderId) ∈ po.related_orders) ∧
    (process_fill s oid P ft now).1.order_counter = s.order_counter + 1 + 1 ∧
    (∀ k : OrderId, k ≠ oid → k ≠ { stamp := now, counter := s.order_counter + 1 } →
      k ≠ { stamp := now, counter := s.order_counter + 1 + 1 } →
      alistLookup (process_fill s oid P ft now).1.orders k = alistLookup s.orders k) := by
  have H := process_fill_market_spec s oid o P ft now
    { stamp := now, counter := s.order_counter + 1 }
    { stamp := now, counter := s.order_counter + 1 + 1 }
    rfl rfl h hst hty hP hid h1 h2
  refine ⟨H.1, H.2.2.2.2.2.1, H.2.2.2.2.2.2.1, ?_, ?_, ?_, H.2.2.1, H.2.2.2.2.2.2.2.2⟩
  · rw [H.2.2.2.2.1]
    simp [mem_setAdd_iff]
  · rw [H.2.2.2.2.1]
    simp [mem_setAdd_iff]
  · refine ⟨_, H.2.2.2.2.2.2.2.1, rfl, rfl, ?_, ?_⟩
    · simp [mem_setAdd_iff]
    · simp [mem_setAdd_iff]

/-- A market order sitting in open status, ready to be filled. -/
def sampleOrder : Order :=
  { id := ⟨1, 1⟩, asset := "BTC/USD", order_type := OrderType.market,
    side := OrderSide.buy, size := 1, price := none,
    status := OrderStatus.open_, timestamp := 1 }

/-- A manager state holding one open market order. -/
def sampleOpenOM : OMState :=
  { config := sampleConfig, orders := [(⟨1, 1⟩, sampleOrder)],
    active_orders := [⟨1, 1⟩], fills := [], order_counter := 1 }

/-- Counterexample to C1 as frozen: a fill of a market order at price 0 is
a successful processFill, yet no protective order is synthesized — the
order counter and the table size are unchanged. -/
theorem processFill_zero_price_attaches_nothing :
    (process_fill sampleOpenOM ⟨1, 1⟩ 0 none 2).2 = true ∧
    (process_fill sampleOpenOM ⟨1, 1⟩ 0 none 2).1.order_counter = 1 ∧
    (process_fill sampleOpenOM ⟨1, 1⟩ 0 none 2).1.orders.length = 1 := by
  refine ⟨?_, ?_, ?_⟩ <;>
    simp [process_fill, attach_stop_orders, sampleOpenOM, sampleOrder,
      alistLookup, alistInsert, listRemove, fillsAppend]

/-- Witness for C1 at a concrete state: filling the sample order at 50000
produces the stop-loss/take-profit pair with the stated prices and links. -/
theorem processFill_market_attaches_protective_pair_witness :
    (process_fill sampleOpenOM ⟨1, 1⟩ 50000 none 2).2 = true ∧
    alistLookup (process_fill sampleOpenOM ⟨1, 1⟩ 50000 none 2).1.orders
        { stamp := 2, counter := sampleOpenOM.order_counter + 1 } =
      some { id := { stamp := 2, counter := sampleOpenOM.order_counter + 1 },
             asset := sampleOrder.asset, order_type := OrderType.stop_loss,
             side := OrderSide.sell, size := sampleOrder.size,
             price := some (50000 * (1 - sampleOpenOM.config.stop_loss_percent)),
             status := OrderStatus.pending, timestamp := 2,
             related_orders := [⟨1, 1⟩,
               { stamp := 2, counter := sampleOpenOM.order_counter + 1 + 1 }] } ∧
    alistLookup (process_fill sampleOpenOM ⟨1, 1⟩ 50000 none 2).1.orders
        { stamp := 2, counter := sampleOpenOM.order_counter + 1 + 1 } =
      some { id := { stamp := 2, counter := sampleOpenOM.order_counter + 1 + 1 },
             asset := sampleOrder.asset, order_type := OrderType.take_profit,
             side := OrderSide.sell, size := sampleOrder.size,
             price := some (50000 * (1 + sampleOpenOM.config.take_profit_percent)),
             status := OrderStatus.pending, timestamp := 2,
             related_orders := [⟨1, 1⟩,
               { stamp := 2, counter := sampleOpenOM.order_counter + 1 }] } ∧
    ({ stamp := 2, counter := sampleOpenOM.order_counter + 1 } : OrderId) ∈
      (process_fill sampleOpenOM ⟨1, 1⟩ 50000 none 2).1.active_orders ∧
    ({ stamp := 2, counter := sampleOpenOM.order_counter + 1 + 1 } : OrderId) ∈
      (process_fill sampleOpenOM ⟨1, 1⟩ 50000 none 2).1.active_orders ∧
    (∃ po, alistLookup (process_fill sampleOpenOM ⟨1, 1⟩ 50000 none 2).1.orders ⟨1, 1⟩ =
        some po ∧
      po.status = OrderStatus.filled ∧ po.fill_price = some 50000 ∧
      ({ stamp := 2, counter := sampleOpenOM.order_counter + 1 } : OrderId) ∈
        po.related_orders ∧
      ({ stamp := 2, counter := sampleOpenOM.order_counter + 1 + 1 } : OrderId) ∈
        po.related_orders) ∧
    (process_fill sampleOpenOM ⟨1, 1⟩ 50000 none 2).1.order_counter =
      sampleOpenOM.order_counter + 1 + 1 := by
  have H := processFill_market_attaches_protective_pair sampleOpenOM ⟨1, 1⟩
    sampleOrder 50000 none 2 rfl rfl rfl (by norm_num) rfl (by decide) (by decide)
  exact ⟨H.1, H.2.1, H.2.2.1, H.2.2.2.1, H.2.2.2.2.1, H.2.2.2.2.2.1, H.2.2.2.2.2.2.1⟩

/-- Cancelling one member of a linked pending pair whose common parent is
already filled: the cancelled order and its pending sibling both end
cancelled and inactive, the parent entry is untouched, and nothing else
changes. -/
theorem cancel_pair_half (s : OMState) (a b poid : OrderId) (ao bo po : Order)
    (ha : alistLookup s.orders a = some ao)
    (hast : ao.status = OrderStatus.pending)
    (harel : ao.related_orders = [poid, b])
    (hb : alistLookup s.orders b = some bo)
    (hbst : bo.status = OrderStatus.pending)
    (hp : alistLookup s.orders poid = some po)
    (hpst : po.status = OrderStatus.filled)
    (hab : a ≠ b) (hap : a ≠ poid) (hbp : b ≠ poid) :
    (cancel_order s a).2 = true ∧
    alistLookup (cancel_order s a).1.orders a =
      some { ao with status := OrderStatus.cancelled } ∧
    alistLookup (cancel_order s a).1.orders b =
      some { bo with status := OrderStatus.cancelled } ∧
    alistLookup (cancel_order s a).1.orders poid = some po ∧
    a ∉ (cancel_order s a).1.active_orders ∧
    b ∉ (cancel_order s a).1.active_orders ∧
    (∀ k, k ≠ a → k ≠ b →
      alistLookup (cancel_order s a).1.orders k = alistLookup s.orders k) := by
  have habs := Ne.symm hab
  have haps := Ne.symm hap
  have hbps := Ne.symm hbp
  have hact : (cancel_order s a).1.active_orders =
      listRemove (listRemove s.active_orders a) b := by
    simp [cancel_order, cancelRelated, ha, hast, harel, hb, hbst, hp, hpst,
      hab, hap, hbp, habs, haps, hbps,
      alistLookup_insert_self, alistLookup_insert_ne]
  refine ⟨?_, ?_, ?_, ?_, ?_, ?_, ?_⟩
  · simp [cancel_order, cancelRelated, ha, hast, harel, hb, hbst, hp, hpst,
      hab, hap, hbp, habs, haps, hbps,
      alistLookup_insert_self, alistLookup_insert_ne]
  · simp [cancel_order, cancelRelated, ha, hast, harel, hb, hbst, hp, hpst,
      hab, hap, hbp, habs, haps, hbps,
      alistLookup_insert_self, alistLookup_insert_ne]
  · simp [cancel_order, cancelRelated, ha, hast, harel, hb, hbst, hp, hpst,
      hab, hap, hbp, habs, haps, hbps,
      alistLookup_insert_self, alistLookup_insert_ne]
  · simp [cancel_order, cancelRelated, ha, hast, harel, hb, hbst, hp, hpst,
      hab, hap, hbp, habs, haps, hbps,
      alistLookup_insert_self, alistLookup_insert_ne]
  · rw [hact]
    simp [mem_listRemove_iff]
  · rw [hact]
    simp [mem_listRemove_iff]
  · intro k hk1 hk2
    simp [cancel_order, cancelRelated, ha, hast, harel, hb, hbst, hp, hpst,
      hab, hap, hbp, habs, haps, hbps, hk1, hk2,
      alistLookup_insert_self, alistLookup_insert_ne]

/-- C2: for a protective pair attached to a filled market order (pending
stop-loss and take-profit, each linked to the parent and the sibling),
cancelling either protective order succeeds, also cancels the sibling,
removes both from the active set, leaves the filled parent entry
unchanged, and the one-level cascade touches no other entry. -/
theorem cancel_protective_order_cascades_to_sibling (s : OMState)
    (poid slid tpid : OrderId) (po slo tpo : Order)
    (hp : alistLookup s.orders poid = some po)
    (hpst : po.status = OrderStatus.filled)
    (hsl : alistLookup s.orders slid = some slo)
    (hslst : slo.status = OrderStatus.pending)
    (hslrel : slo.related_orders = [poid, tpid])
    (htp : alistLookup s.orders tpid = some tpo)
    (htpst : tpo.status = OrderStatus.pending)
    (htprel : tpo.related_orders = [poid, slid])
    (hab : slid ≠ tpid) (hap : slid ≠ poid) (hbp : tpid ≠ poid) :
    ((cancel_order s slid).2 = true ∧
     alistLookup (cancel_order s slid).1.orders slid =
       some { slo with status := OrderStatus.cancelled } ∧
     alistLookup (cancel_order s slid).1.orders tpid =
       some { tpo with status := OrderStatus.cancelled } ∧
     alistLookup (cancel_order s slid).1.orders poid = some po ∧
     slid ∉ (cancel_order s slid).1.active_orders ∧
     tpid ∉ (cancel_order s slid).1.active_orders ∧
     (∀ k, k ≠ slid → k ≠ tpid →
       alistLookup (cancel_order s slid).1.orders k = alistLookup s.orders k)) ∧
    ((cancel_order s tpid).2 = true ∧
     alistLookup (cancel_order s tpid).1.orders tpid =
       some { tpo with status := OrderStatus.cancelled } ∧
     alistLookup (cancel_order s tpid).1.orders slid =
       some { slo with status := OrderStatus.cancelled } ∧
     alistLookup (cancel_order s tpid).1.orders poid = some po ∧
     tpid ∉ (cancel_order s tpid).1.active_orders ∧
     slid ∉ (cancel_order s tpid).1.active_orders ∧
     (∀ k, k ≠ tpid → k ≠ slid →
       alistLookup (cancel_order s tpid).1.orders k = alistLookup s.orders k)) := by
  constructor
  · exact cancel_pair_half s slid tpid poid slo tpo po hsl hslst hslrel htp htpst
      hp hpst hab hap hbp
  · exact cancel_pair_half s tpid slid poid tpo slo po htp htpst htprel hsl hslst
      hp hpst (Ne.symm hab) hbp hap

/-- The manager state after the sample market order is filled at 50000. -/
def sampleFilledOM : OMState := (process_fill sampleOpenOM ⟨1, 1⟩ 50000 none 2).1

/-- The stop-loss order attached by the sample fill. -/
def sampleSL : Order :=
  { id := ⟨2, 2⟩, asset := "BTC/USD", order_type := OrderType.stop_loss,
    side := OrderSide.sell, size := 1, price := some 49000,
    status := OrderStatus.pending, timestamp := 2,
    related_orders := [⟨1, 1⟩, ⟨2, 3⟩] }

/-- The take-profit order attached by the sample fill. -/
def sampleTP : Order :=
  { id := ⟨2, 3⟩, asset := "BTC/USD", order_type := OrderType.take_profit,
    side := OrderSide.sell, size := 1, price := some 51500,
    status := OrderStatus.pending, timestamp := 2,
    related_orders := [⟨1, 1⟩, ⟨2, 2⟩] }

/-- The filled parent order after the sample fill. -/
def sampleParentFilled : Order :=
  { id := ⟨1, 1⟩, asset := "BTC/USD", order_type := OrderType.market,
    side := OrderSide.buy, size := 1, price := none,
    status := OrderStatus.filled, timestamp := 1, fill_price := some 50000,
    fill_time := some 2, related_orders := [⟨2, 2⟩, ⟨2, 3⟩] }

/-- Witness for C2: cancelling the sample stop-loss also cancels the
take-profit, deactivates both, and leaves the filled parent unchanged. -/
theorem cancel_protective_order_cascades_to_sibling_witness :
    (cancel_order sampleFilledOM ⟨2, 2⟩).2 = true ∧
    alistLookup (cancel_order sampleFilledOM ⟨2, 2⟩).1.orders ⟨2, 2⟩ =
      some { sampleSL with status := OrderStatus.cancelled } ∧
    alistLookup (cancel_order sampleFilledOM ⟨2, 2⟩).1.orders ⟨2, 3⟩ =
      some { sampleTP with status := OrderStatus.cancelled } ∧
    alistLookup (cancel_order sampleFilledOM ⟨2, 2⟩).1.orders ⟨1, 1⟩ =
      some sampleParentFilled ∧
    (⟨2, 2⟩ : OrderId) ∉ (cancel_order sampleFilledOM ⟨2, 2⟩).1.active_orders ∧
    (⟨2, 3⟩ : OrderId) ∉ (cancel_order sampleFilledOM ⟨2, 2⟩).1.active_orders := by
  have hsl : alistLookup sampleFilledOM.orders ⟨2, 2⟩ = some sampleSL := by
    simp [sampleFilledOM, sampleOpenOM, sampleOrder, sampleSL, sampleConfig,
      process_fill, attach_stop_orders, create_stop_order, generate_order_id,
      relAdd, Order.post_init, fillsAppend, alistLookup, alistInsert, setAdd,
      listRemove]
    norm_num
  have htp : alistLookup sampleFilledOM.orders ⟨2, 3⟩ = some sampleTP := by
    simp [sampleFilledOM, sampleOpenOM, sampleOrder, sampleTP, sampleConfig,
      process_fill, attach_stop_orders, create_stop_order, generate_order_id,
      relAdd, Order.post_init, fillsAppend, alistLookup, alistInsert, setAdd,
      listRemove]
    norm_num
  have hpar : alistLookup sampleFilledOM.orders ⟨1, 1⟩ = some sampleParentFilled := by
    simp [sampleFilledOM, sampleOpenOM, sampleOrder, sampleParentFilled, sampleConfig,
      process_fill, attach_stop_orders, create_stop_order, generate_order_id,
      relAdd, Order.post_init, fillsAppend, alistLookup, alistInsert, setAdd,
      listRemove]
  have H := cancel_protective_order_cascades_to_sibling sampleFilledOM
    ⟨1, 1⟩ ⟨2, 2⟩ ⟨2, 3⟩ sampleParentFilled sampleSL sampleTP
    hpar rfl hsl rfl rfl htp rfl rfl (by decide) (by decide) (by decide)
  exact ⟨H.1.1, H.1.2.1, H.1.2.2.1, H.1.2.2.2.1, H.1.2.2.2.2.1, H.1.2.2.2.2.2.1⟩

/-- A P&L state holding a sell position that has lost 100% (entry 100,
current price 200). -/
def drawdownPnl : PnLState :=
  { config := { stop_loss := none, profit_target := none },
    positions := [("BTC/USD",
      { entry_price := some 100, current_price := 200, size := 1,
        side := OrderSide.sell })] }

/-- A risk configuration with default weights and positive limits. -/
def drawdownRiskCfg : RiskConfig :=
  { risk_limits := { max_position_size := 10, max_portfolio_exposure := 1000000 },
    base_volatility := none, w_volatility := none, w_correlation := none }

/-- C5 (code bug in the source): with a -100% P&L snapshot,
update_risk_profile returns risk_score 23/5 > 1 and position_limit
-36 < 0 — the implementation never clamps the composite score, violating
the documented [0,1] range and non-negative limit (the repository's own
test asserts risk_score ≤ 1). -/
theorem riskScore_exceeds_one_on_large_drawdown :
    (update_risk_profile drawdownRiskCfg drawdownPnl "BTC/USD").risk_score = 23/5 ∧
    1 < (update_risk_profile drawdownRiskCfg drawdownPnl "BTC/USD").risk_score ∧
    (update_risk_profile drawdownRiskCfg drawdownPnl "BTC/USD").position_limit = -36 ∧
    (update_risk_profile drawdownRiskCfg drawdownPnl "BTC/USD").position_limit < 0 := by
  refine ⟨?_, ?_, ?_, ?_⟩ <;>
    norm_num [update_risk_profile, get_asset_volatility,
      PnLState.get_performance_summary, drawdownRiskCfg, drawdownPnl, alistLookup]

/-- C8 (amended: the bound additionally needs the existing snapshot
exposure to be within the 98% cap and a non-negative configured
max-position-size): calculatePositionSize never exceeds
max-position-size, the notional exposure it produces keeps the total
within 98% of max-portfolio-exposure, and a non-positive remaining
capacity yields size 0. -/
theorem positionSize_respects_caps (cfg : RiskConfig) (pnl : PnLState)
    (asset : String) (price : ℚ)
    (hp : 0 < price)
    (hmp : 0 ≤ cfg.risk_limits.max_position_size)
    (hsnap : ∀ p ∈ pnl.positions, 0 ≤ p.2.current_price ∧ 0 ≤ p.2.size)
    (hexp : currentExposure pnl ≤ 49/50 * cfg.risk_limits.max_portfolio_exposure) :
    calculate_position_size cfg pnl asset price ≤ cfg.risk_limits.max_position_size ∧
    calculate_position_size cfg pnl asset price * price + currentExposure pnl ≤
      49/50 * cfg.risk_limits.max_portfolio_exposure ∧
    (49/50 * cfg.risk_limits.max_portfolio_exposure - currentExposure pnl ≤ 0 →
      calculate_position_size cfg pnl asset price = 0) := by
  simp only [calculate_position_size]
  set E := currentExposure pnl with hE
  set M := cfg.risk_limits.max_portfolio_exposure with hM
  set S := cfg.risk_limits.max_position_size with hS
  by_cases hrem : M * (49/50) - E ≤ 0
  · rw [if_pos hrem]
    refine ⟨hmp, by linarith, fun _ => rfl⟩
  · rw [if_neg hrem]
    push_neg at hrem
    set R := M * (49/50) - E with hR
    have hU : min (R / price * (49/50)) S ≤ R / price * (49/50) := min_le_left _ _
    have h2 : min (R / price * (49/50)) S * price ≤ R / price * (49/50) * price :=
      mul_le_mul_of_nonneg_right hU (le_of_lt hp)
    have h3 : R / price * (49/50) * price = R * (49/50) := by
      field_simp
      ring
    have h4 : R * (49/50) ≤ R := by nlinarith
    refine ⟨min_le_right _ _, by linarith [hR], fun hcontra => ?_⟩
    exfalso
    have hrem2 : 0 < 49/50 * M - E := by
      have hrr := hrem
      rw [hR] at hrr
      linarith
    linarith

/-- A P&L state whose snapshot exposure (100) already exceeds the 98% cap
(49) of the small configured portfolio limit below. -/
def overexposedPnl : PnLState :=
  { config := { stop_loss := none, profit_target := none },
    positions := [("BTC/USD",
      { entry_price := some 100, current_price := 100, size := 1,
        side := OrderSide.buy })] }

/-- A risk configuration with max portfolio exposure 50 (98% cap 49). -/
def smallLimitCfg : RiskConfig :=
  { risk_limits := { max_position_size := 10, max_portfolio_exposure := 50 },
    base_volatility := none, w_volatility := none, w_correlation := none }

/-- Counterexample to C8 as frozen: with existing snapshot exposure 100
above the cap 49, the returned size is 0 but the total notional
(0*price + 100) still exceeds 98% of max-portfolio-exposure, so the
claimed bound fails; the claim's own hypotheses (positive price,
non-negative snapshot values) hold here. -/
theorem positionSize_exposure_cap_exceeded_when_over :
    calculate_position_size smallLimitCfg overexposedPnl "BTC/USD" 5 = 0 ∧
    currentExposure overexposedPnl = 100 ∧
    ¬(calculate_position_size smallLimitCfg overexposedPnl "BTC/USD" 5 * 5 +
        currentExposure overexposedPnl ≤
      49/50 * smallLimitCfg.risk_limits.max_portfolio_exposure) := by
  refine ⟨?_, ?_, ?_⟩ <;>
    norm_num [calculate_position_size, currentExposure, smallLimitCfg, overexposedPnl]

/-- A P&L state with snapshot exposure 50, inside the cap of the witness
configuration below. -/
def partialPnl : PnLState :=
  { config := { stop_loss := none, profit_target := none },
    positions := [("BTC/USD",
      { entry_price := some 50, current_price := 50, size := 1,
        side := OrderSide.buy })] }

/-- A risk configuration with max position size 10 and exposure 100. -/
def roomyCfg : RiskConfig :=
  { risk_limits := { max_position_size := 10, max_portfolio_exposure := 100 },
    base_volatility := none, w_volatility := none, w_correlation := none }

/-- Witness for C8 at a concrete state inside the cap. -/
theorem positionSize_respects_caps_witness :
    calculate_position_size roomyCfg partialPnl "BTC/USD" 2 ≤
      roomyCfg.risk_limits.max_position_size ∧
    calculate_position_size roomyCfg partialPnl "BTC/USD" 2 * 2 +
      currentExposure partialPnl ≤
      49/50 * roomyCfg.risk_limits.max_portfolio_exposure := by
  have H := positionSize_respects_caps roomyCfg partialPnl "BTC/USD" 2
    (by norm_num)
    (by norm_num [roomyCfg])
    (by
      intro p hp2
      simp only [partialPnl, List.mem_singleton] at hp2
      subst hp2
      norm_num)
    (by norm_num [currentExposure, partialPnl, roomyCfg])
  exact ⟨H.1, H.2.1⟩

/-- C9: the stored P&L percent is side-aware; for a sell-side snapshot
with positive entry price, a current price above entry yields a strictly
negative P&L percent and a current price below entry a strictly positive
one — both for the fraction used in updatePosition's alert comparison
and for the percent reported by getPerformanceSummary. -/
theorem sell_side_pnl_sign_flipped (s : PnLState) (asset : String)
    (pos : Snapshot) (e : ℚ)
    (h : alistLookup s.positions asset = some pos)
    (hside : pos.side = OrderSide.sell)
    (he : pos.entry_price = some e)
    (hpos : 0 < e) :
    (e < pos.current_price →
      side_adjusted_pnl_pct e pos.current_price pos.side < 0 ∧
      get_performance_summary s asset =
        some { current_pnl := (e - pos.current_price) * pos.size,
               pnl_percent := (e - pos.current_price) / e * 100,
               exposure := pos.current_price * pos.size } ∧
      (e - pos.current_price) / e * 100 < 0) ∧
    (pos.current_price < e →
      0 < side_adjusted_pnl_pct e pos.current_price pos.side ∧
      get_performance_summary s asset =
        some { current_pnl := (e - pos.current_price) * pos.size,
               pnl_percent := (e - pos.current_price) / e * 100,
               exposure := pos.current_price * pos.size } ∧
      0 < (e - pos.current_price) / e * 100) := by
  have hsum : get_performance_summary s asset =
      some { current_pnl := (e - pos.current_price) * pos.size,
             pnl_percent := (e - pos.current_price) / e * 100,
             exposure := pos.current_price * pos.size } := by
    simp [get_performance_summary, h, he, hside, neg_sub, hpos.ne']
  constructor
  · intro hlt
    have hfrac : 0 < (pos.current_price - e) / e := div_pos (by linarith) hpos
    have hneg : (e - pos.current_price) / e < 0 :=
      div_neg_of_neg_of_pos (by linarith) hpos
    refine ⟨?_, hsum, ?_⟩
    · simp only [side_adjusted_pnl_pct, hside, eq_self_iff_true, if_true]
      linarith
    · nlinarith
  · intro hlt
    have hfrac : (pos.current_price - e) / e < 0 :=
      div_neg_of_neg_of_pos (by linarith) hpos
    have hposq : 0 < (e - pos.current_price) / e := div_pos (by linarith) hpos
    refine ⟨?_, hsum, ?_⟩
    · simp only [side_adjusted_pnl_pct, hside, eq_self_iff_true, if_true]
      linarith
    · nlinarith

/-- A P&L state with a sell position: entry 100, current 150. -/
def sellPnl : PnLState :=
  { config := { stop_loss := none, profit_target := none },
    positions := [("ETH/USD",
      { entry_price := some 100, current_price := 150, size := 2,
        side := OrderSide.sell })] }

/-- Witness for C9: the sell position with current price 150 above entry
100 has negative side-adjusted P&L in both computations. -/
theorem sell_side_pnl_sign_flipped_witness :
    side_adjusted_pnl_pct 100 150 OrderSide.sell < 0 ∧
    get_performance_summary sellPnl "ETH/USD" =
      some { current_pnl := (100 - 150) * 2,
             pnl_percent := (100 - 150) / 100 * 100,
             exposure := 150 * 2 } ∧
    ((100:ℚ) - 150) / 100 * 100 < 0 := by
  have H := sell_side_pnl_sign_flipped sellPnl "ETH/USD"
    { entry_price := some 100, current_price := 150, size := 2,
      side := OrderSide.sell } 100 rfl rfl rfl (by norm_num)
  exact H.1 (by norm_num)

/-- After PriceFeed.unsubscribe, the removed callback is absent from the
asset's remaining subscriber set (when the asset still has one). -/
theorem unsubscribe_not_mem (f : FeedState) (a : String) (cb : Nat) (cbs : List Nat)
    (h : alistLookup (unsubscribe f a cb).subscribers a = some cbs) :
    cb ∉ cbs := by
  unfold unsubscribe at h
  rcases hfeed : alistLookup f.subscribers a with _ | cbs0
  · simp [hfeed] at h
  · simp only [hfeed] at h
    by_cases hmem : cb ∈ cbs0
    · rw [if_pos hmem] at h
      by_cases hempty : listRemove cbs0 cb = []
      · rw [if_pos hempty] at h
        simp only [alistLookup_erase_self] at h
        cases h
      · rw [if_neg hempty] at h
        simp only [alistLookup_insert_self, Option.some.injEq] at h
        rw [← h]
        exact not_mem_listRemove cbs0 cb
    · rw [if_neg hmem] at h
      rw [hfeed, Option.some.injEq] at h
      rw [← h]
      exact hmem

/-- C7 (amended: the stop-loss and take-profit trigger values must be
nonzero — the source's truthiness checks skip a trigger equal to 0 — and
the entry price must be nonzero — at entry price 0 the handler's P&L
division raises before the stop checks and the position is never
removed): for a tracked position with stop-loss L and take-profit T,
L < entry < T, a price update at price ≤ L or ≥ T removes the position
(and leaves its handler unsubscribed for the asset), a price strictly
between L and T never removes it, and the stop-loss check is evaluated
first, so a breached stop-loss always yields the stop-loss branch. -/
theorem tracker_price_breach_removes_position (s : TrackerState) (asset : String)
    (p : Position) (sl tp : ℚ) (u : PriceUpdate)
    (hu : u.asset = asset)
    (hpos : alistLookup s.positions asset = some p)
    (hpa : p.asset = asset)
    (hsl : p.stop_loss = some sl) (htp : p.take_profit = some tp)
    (hsl0 : sl ≠ 0) (htp0 : tp ≠ 0)
    (he : p.entry_price ≠ 0)
    (hb : sl < p.entry_price) (ha : p.entry_price < tp) :
    ((u.price ≤ sl ∨ tp ≤ u.price) →
      alistLookup (handle_price_update s u).1.positions asset = none ∧
      (∀ cbs, alistLookup (handle_price_update s u).1.feed.subscribers asset =
        some cbs → trackerHandler ∉ cbs)) ∧
    (sl < u.price → u.price < tp →
      alistLookup (handle_price_update s u).1.positions asset =
        some { p with current_price := u.price }) ∧
    (∀ (s2 : TrackerState) (p2 : Position) (u2 : PriceUpdate) (sl2 : ℚ),
      alistLookup s2.positions u2.asset = some p2 →
      p2.stop_loss = some sl2 → sl2 ≠ 0 → p2.entry_price ≠ 0 → u2.price ≤ sl2 →
      (handle_price_update s2 u2).2 = some StopTrigger.stopLossFired) := by
  refine ⟨?_, ?_, ?_⟩
  · intro hbreach
    have hremoved :
        (handle_price_update s u).1 =
          remove_position
            { s with
              positions := alistInsert s.positions u.asset
                { p with current_price := u.price },
              position_pnl := alistInsert s.position_pnl p.asset
                (((u.price - p.entry_price) / p.entry_price) * 100) } p.asset := by
      rcases hbreach with hbreach | hbreach
      · simp [handle_price_update, calculate_pnl, he, hu, hpos, hsl, hsl0, hbreach]
      · have hnostop : ¬ u.price ≤ sl := by linarith
        simp [handle_price_update, calculate_pnl, he, hu, hpos, hsl, htp, hsl0,
          htp0, hnostop, hbreach]
    rw [hremoved]
    constructor
    · simp [remove_position, hu, hpa, alistLookup_insert_self]
    · have hfeedEq :
          (remove_position
            { s with
              positions := alistInsert s.positions u.asset
                { p with current_price := u.price },
              position_pnl := alistInsert s.position_pnl p.asset
                (((u.price - p.entry_price) / p.entry_price) * 100) } p.asset).feed =
          unsubscribe s.feed asset trackerHandler := by
        simp [remove_position, hu, hpa, alistLookup_insert_self]
      rw [hfeedEq]
      intro cbs hcbs
      exact unsubscribe_not_mem s.feed asset trackerHandler cbs hcbs
  · intro h1 h2
    have hnostop : ¬ u.price ≤ sl := by linarith
    have hnotake : ¬ tp ≤ u.price := by linarith
    simp [handle_price_update, calculate_pnl, he, hu, hpos, hsl, htp, hnostop,
      hnotake, alistLookup_insert_self]
  · intro s2 p2 u2 sl2 hpos2 hsl2 hne2 hpe2 hle2
    simp [handle_price_update, hpos2, hsl2, hne2, hle2, calculate_pnl, hpe2]

/-- A tracked position whose stop-loss trigger is exactly 0
(L = 0 < entry = 1 < T = 2), with its handler subscribed. -/
def zeroStopTracker : TrackerState :=
  { positions := [("BTC/USD",
      { asset := "BTC/USD", size := 1, entry_price := 1, current_price := 1,
        timestamp := 0, stop_loss := some 0, take_profit := some 2 })],
    position_pnl := [("BTC/USD", 0)],
    feed := { subscribers := [("BTC/USD", [0])], last_prices := [] } }

/-- Counterexample to C7 as frozen: with L = 0 < entry = 1 < T = 2 the
update price 0 satisfies price ≤ L, yet the position stays tracked — the
source's truthiness check skips a stop-loss equal to 0. -/
theorem tracker_zero_stop_loss_not_removed :
    (0:ℚ) ≤ 0 ∧ (0:ℚ) < 1 ∧ (1:ℚ) < 2 ∧
    alistLookup (handle_price_update zeroStopTracker
        { asset := "BTC/USD", price := 0 }).1.positions "BTC/USD" =
      some { asset := "BTC/USD", size := 1, entry_price := 1, current_price := 0,
             timestamp := 0, stop_loss := some 0, take_profit := some 2 } := by
  refine ⟨le_refl 0, by norm_num, by norm_num, ?_⟩
  norm_num [handle_price_update, zeroStopTracker, alistLookup, alistInsert,
    calculate_pnl]

/-- A tracked position with stop-loss 90, entry 100, take-profit 120. -/
def sampleTrackedPos : Position :=
  { asset := "BTC/USD", size := 1, entry_price := 100, current_price := 100,
    timestamp := 0, stop_loss := some 90, take_profit := some 120 }

/-- A tracker state holding the sample position with its handler
subscribed. -/
def sampleTracker : TrackerState :=
  { positions := [("BTC/USD", sampleTrackedPos)],
    position_pnl := [("BTC/USD", 0)],
    feed := { subscribers := [("BTC/USD", [trackerHandler])], last_prices := [] } }

/-- Witness for C7: an update at 85 ≤ stop-loss 90 removes the sample
position through the stop-loss branch. -/
theorem tracker_price_breach_removes_position_witness :
    alistLookup (handle_price_update sampleTracker
        { asset := "BTC/USD", price := 85 }).1.positions "BTC/USD" = none ∧
    (handle_price_update sampleTracker
        { asset := "BTC/USD", price := 85 }).2 = some StopTrigger.stopLossFired := by
  have hpos : alistLookup sampleTracker.positions "BTC/USD" = some sampleTrackedPos := by
    simp [sampleTracker, alistLookup]
  have H := tracker_price_breach_removes_position sampleTracker "BTC/USD"
    sampleTrackedPos 90 120 { asset := "BTC/USD", price := 85 }
    rfl hpos rfl rfl rfl (by norm_num) (by norm_num)
    (by norm_num [sampleTrackedPos])
    (by norm_num [sampleTrackedPos]) (by norm_num [sampleTrackedPos])
  refine ⟨(H.1 (Or.inl (by norm_num))).1, ?_⟩
  exact H.2.2 sampleTracker sampleTrackedPos { asset := "BTC/USD", price := 85 } 90
    hpos rfl (by norm_num) (by norm_num [sampleTrackedPos]) (by norm_num)

/-- A tracked position with entry price 0 and nonzero triggers
(L = -1 < entry = 0 < T = 1), with its handler subscribed. -/
def zeroEntryTracker : TrackerState :=
  { positions := [("BTC/USD",
      { asset := "BTC/USD", size := 1, entry_price := 0, current_price := 0,
        timestamp := 0, stop_loss := some (-1), take_profit := some 1 })],
    position_pnl := [("BTC/USD", 0)],
    feed := { subscribers := [("BTC/USD", [0])], last_prices := [] } }

/-- At entry price 0 the handler's P&L division raises before the stop
checks (the hub swallows the exception), so even a price at or below the
nonzero stop-loss removes nothing: the position stays tracked (with the
already-mutated current price) and the handler stays subscribed.  This is
why the C7 theorem requires a nonzero entry price. -/
theorem tracker_zero_entry_price_crash_not_removed :
    (-2:ℚ) ≤ -1 ∧
    alistLookup (handle_price_update zeroEntryTracker
        { asset := "BTC/USD", price := -2 }).1.positions "BTC/USD" =
      some { asset := "BTC/USD", size := 1, entry_price := 0, current_price := -2,
             timestamp := 0, stop_loss := some (-1), take_profit := some 1 } ∧
    (handle_price_update zeroEntryTracker
        { asset := "BTC/USD", price := -2 }).2 = none ∧
    alistLookup (handle_price_update zeroEntryTracker
        { asset := "BTC/USD", price := -2 }).1.feed.subscribers "BTC/USD" =
      some [0] := by
  refine ⟨by norm_num, ?_, ?_, ?_⟩ <;>
    norm_num [handle_price_update, zeroEntryTracker, alistLookup, alistInsert,
      calculate_pnl]

/-- C6: updatePosition on an asset holding an active position whose order
has a nonzero entry price breaching the stop-loss threshold at the given
price emits exactly the stop-loss alert and invokes closePosition within
the same call, so the asset is gone from the active-position table when
it returns; with no active position it returns an empty list and changes
nothing. -/
theorem updatePosition_stop_loss_closes_position (s : TSState) (asset : String)
    (price : ℚ) (now : Nat) :
    (∀ pos o e, alistLookup s.active_positions asset = some pos →
      get_order s.om pos.order_id = some o →
      o.entry_price = some e → e ≠ 0 →
      side_adjusted_pnl_pct e price o.side ≤
        -((s.pnl.config.stop_loss).getD (1/100)) →
      (TSState.update_position s asset price now).2 =
        [{ alert_type := "stop_loss", message := "Stop loss triggered" }] ∧
      alistLookup (TSState.update_position s asset price now).1.active_positions
        asset = none) ∧
    (alistLookup s.active_positions asset = none →
      TSState.update_position s asset price now = (s, [])) := by
  constructor
  · intro pos o e hap hord hentry he hcond
    have hcond2 : side_adjusted_pnl_pct e price o.side ≤
        -((s.pnl.config.stop_loss).getD ((100:ℚ)⁻¹)) := by
      rw [show ((100:ℚ)⁻¹) = 1/100 by norm_num]
      exact hcond
    constructor
    · simp [TSState.update_position, hap, hord, PnLState.update_position,
        hentry, he, hcond2]
    · simp [TSState.update_position, hap, hord, PnLState.update_position,
        hentry, he, hcond2, handleAlerts, close_position, alistLookup_erase_self]
  · intro hnone
    simp [TSState.update_position, hnone]

/- ### Order-manager invariants (for C4 and C10) -/

/-- The related_orders relation restricted to orders present in the table
is symmetric: if A references B and both are stored, B references A. -/
def RelSymm (om : OMState) : Prop :=
  ∀ a oa b ob, alistLookup om.orders a = some oa → b ∈ oa.related_orders →
    alistLookup om.orders b = some ob → a ∈ ob.related_orders

/-- Every stored key and every stored related id has a counter bounded by
the manager's counter, so ids generated later are fresh and never
coincide with a stored (possibly dangling) reference. -/
def CounterBound (om : OMState) : Prop :=
  ∀ a oa, alistLookup om.orders a = some oa →
    a.counter ≤ om.order_counter ∧
    ∀ b ∈ oa.related_orders, b.counter ≤ om.order_counter

/-- Every stored order's id field equals its table key (true of every
order the manager creates; the source relies on it through the aliased
Order objects). -/
def IdMatch (om : OMState) : Prop :=
  ∀ a oa, alistLookup om.orders a = some oa → oa.id = a

/-- Every id in the active set resolves to a stored order in pending or
open status (the active dict holds exactly the non-terminal orders). -/
def ActiveInv (om : OMState) : Prop :=
  ∀ id ∈ om.active_orders, ∃ o, alistLookup om.orders id = some o ∧
    (o.status = OrderStatus.pending ∨ o.status = OrderStatus.open_)

/-- The link data of an order: its id field and its relation set. -/
def orderLink (o : Order) : OrderId × List OrderId := (o.id, o.related_orders)

/-- A fresh id (counter above the bound) is neither stored nor referenced. -/
theorem counterBound_fresh (om : OMState) (hcb : CounterBound om) (now k : Nat)
    (hk : om.order_counter < k) :
    alistLookup om.orders { stamp := now, counter := k } = none ∧
    (∀ a oa, alistLookup om.orders a = some oa →
      ({ stamp := now, counter := k } : OrderId) ∉ oa.related_orders) := by
  constructor
  · cases hl : alistLookup om.orders { stamp := now, counter := k } with
    | none => rfl
    | some o =>
      have hbound : k ≤ om.order_counter := (hcb _ _ hl).1
      omega
  · intro a oa ha hmem
    have hbound : k ≤ om.order_counter := (hcb _ _ ha).2 _ hmem
    omega

/-- If the link data of every entry is unchanged and the counter does not
decrease, the three link invariants transfer. -/
theorem invariants_of_relEq (om om2 : OMState)
    (hre : ∀ a, Option.map orderLink (alistLookup om2.orders a) =
      Option.map orderLink (alistLookup om.orders a))
    (hc : om.order_counter ≤ om2.order_counter) :
    (RelSymm om → RelSymm om2) ∧ (CounterBound om → CounterBound om2) ∧
    (IdMatch om → IdMatch om2) := by
  have hget : ∀ a oa2, alistLookup om2.orders a = some oa2 →
      ∃ oa, alistLookup om.orders a = some oa ∧ oa.id = oa2.id ∧
        oa.related_orders = oa2.related_orders := by
    intro a oa2 ha2
    have h := hre a
    rw [ha2] at h
    cases hl : alistLookup om.orders a with
    | none =>
      rw [hl] at h
      cases h
    | some oa =>
      rw [hl] at h
      simp [orderLink, Prod.ext_iff] at h
      exact ⟨oa, rfl, h.1.symm, h.2.symm⟩
  refine ⟨?_, ?_, ?_⟩
  · intro hsym a oa2 b ob2 ha2 hmem hb2
    obtain ⟨oa, ha, hia, hra⟩ := hget a oa2 ha2
    obtain ⟨ob, hb, hib, hrb⟩ := hget b ob2 hb2
    rw [← hrb]
    rw [← hra] at hmem
    exact hsym a oa b ob ha hmem hb
  · intro hcb a oa2 ha2
    obtain ⟨oa, ha, hia, hra⟩ := hget a oa2 ha2
    have h := hcb a oa ha
    refine ⟨le_trans h.1 hc, ?_⟩
    intro b hmem
    rw [← hra] at hmem
    exact le_trans (h.2 b hmem) hc
  · intro hid a oa2 ha2
    obtain ⟨oa, ha, hia, hra⟩ := hget a oa2 ha2
    rw [← hia]
    exact hid a oa ha

/-- Full characterization of create_market_order. -/
theorem create_market_order_spec (om : OMState) (asset : String) (side : OrderSide)
    (size : ℚ) (att : Bool) (now : Nat) :
    create_market_order om asset side size att now =
      ({ om with
          orders := alistInsert om.orders
            { stamp := now, counter := om.order_counter + 1 }
            { id := { stamp := now, counter := om.order_counter + 1 },
              asset := asset, order_type := OrderType.market, side := side,
              size := size, price := none, status := OrderStatus.pending,
              timestamp := now },
          active_orders := setAdd om.active_orders
            { stamp := now, counter := om.order_counter + 1 },
          order_counter := om.order_counter + 1 },
       { id := { stamp := now, counter := om.order_counter + 1 },
         asset := asset, order_type := OrderType.market, side := side,
         size := size, price := none, status := OrderStatus.pending,
         timestamp := now }) := by
  simp [create_market_order, generate_order_id, Order.post_init]

/-- Full characterization of create_limit_order. -/
theorem create_limit_order_spec (om : OMState) (asset : String) (side : OrderSide)
    (size price : ℚ) (now : Nat) :
    create_limit_order om asset side size price now =
      ({ om with
          orders := alistInsert om.orders
            { stamp := now, counter := om.order_counter + 1 }
            { id := { stamp := now, counter := om.order_counter + 1 },
              asset := asset, order_type := OrderType.limit, side := side,
              size := size, price := some price, status := OrderStatus.pending,
              timestamp := now },
          active_orders := setAdd om.active_orders
            { stamp := now, counter := om.order_counter + 1 },
          order_counter := om.order_counter + 1 },
       { id := { stamp := now, counter := om.order_counter + 1 },
         asset := asset, order_type := OrderType.limit, side := side,
         size := size, price := some price, status := OrderStatus.pending,
         timestamp := now }) := by
  simp [create_limit_order, generate_order_id, Order.post_init]

/-- Characterization of a successful fill that does not attach stops:
either the order is not a market order, or the fill price is 0 (falsy in
the source's guard). -/
theorem process_fill_no_attach_spec (s : OMState) (oid : OrderId) (o : Order)
    (P : ℚ) (ft : Option Nat) (now : Nat)
    (h : alistLookup s.orders oid = some o)
    (hst : o.status = OrderStatus.open_)
    (hna : o.order_type ≠ OrderType.market ∨ P = 0) :
    process_fill s oid P ft now =
      ({ s with
          orders := alistInsert s.orders oid
            { o with status := OrderStatus.filled, fill_price := some P,
                     fill_time := some (ft.getD now) },
          active_orders := listRemove s.active_orders oid,
          fills := fillsAppend s.fills oid
            { price := P, time := ft.getD now, size := o.size } }, true) := by
  rcases hna with hna | hna
  · simp [process_fill, attach_stop_orders, h, hst, hna]
  · subst hna
    by_cases hty : o.order_type = OrderType.market
    · simp [process_fill, attach_stop_orders, h, hst, hty]
    · simp [process_fill, attach_stop_orders, h, hst, hty]

/-- The cascade loop only shrinks the active set, leaves the entry of
every still-active id untouched, preserves every entry's link data, and
keeps the counter. -/
theorem cancelRelated_props (rids : List OrderId) : ∀ (s : OMState),
    (∀ id, id ∈ (cancelRelated s rids).active_orders → id ∈ s.active_orders) ∧
    (∀ id, id ∈ (cancelRelated s rids).active_orders →
      alistLookup (cancelRelated s rids).orders id = alistLookup s.orders id) ∧
    (∀ a, Option.map orderLink (alistLookup (cancelRelated s rids).orders a) =
      Option.map orderLink (alistLookup s.orders a)) ∧
    (cancelRelated s rids).order_counter = s.order_counter := by
  induction rids with
  | nil =>
    intro s
    exact ⟨fun id h => h, fun id _ => rfl, fun a => rfl, rfl⟩
  | cons rid rest ih =>
    intro s
    rcases hl : alistLookup s.orders rid with _ | ro
    · have heq : cancelRelated s (rid :: rest) = cancelRelated s rest := by
        simp [cancelRelated, hl]
      rw [heq]
      exact ih s
    · by_cases hstatus : ro.status = OrderStatus.pending ∨ ro.status = OrderStatus.open_
      · have heq : cancelRelated s (rid :: rest) =
            cancelRelated
              { s with
                orders :=
                  alistInsert s.orders rid { ro with status := OrderStatus.cancelled },
                active_orders := listRemove s.active_orders rid } rest := by
          simp [cancelRelated, hl, hstatus]
        rw [heq]
        obtain ⟨ih1, ih2, ih3, ih4⟩ := ih
          { s with
            orders :=
              alistInsert s.orders rid { ro with status := OrderStatus.cancelled },
            active_orders := listRemove s.active_orders rid }
        refine ⟨?_, ?_, ?_, ?_⟩
        · intro id hid2
          have h1 : id ∈ listRemove s.active_orders rid := ih1 id hid2
          exact ((mem_listRemove_iff _ _ _).mp h1).1
        · intro id hid2
          have h1 : id ∈ listRemove s.active_orders rid := ih1 id hid2
          have hne : id ≠ rid := ((mem_listRemove_iff _ _ _).mp h1).2
          rw [ih2 id hid2]
          exact alistLookup_insert_ne s.orders rid _ id hne
        · intro a
          rw [ih3 a]
          by_cases ha : a = rid
          · subst ha
            simp [alistLookup_insert_self, hl, orderLink]
          · simp [alistLookup_insert_ne, ha]
        · rw [ih4]
      · have heq : cancelRelated s (rid :: rest) = cancelRelated s rest := by
          simp [cancelRelated, hl, hstatus]
        rw [heq]
        exact ih s

/-- cancel_order only shrinks the active set, leaves every still-active
entry untouched, preserves every entry's link data, keeps the counter,
and (when each active id resolves to a pending/open order) guarantees the
cancelled id is no longer active. -/
theorem cancel_order_props (s : OMState) (oid : OrderId) :
    (∀ id, id ∈ (cancel_order s oid).1.active_orders → id ∈ s.active_orders) ∧
    (∀ id, id ∈ (cancel_order s oid).1.active_orders →
      alistLookup (cancel_order s oid).1.orders id = alistLookup s.orders id) ∧
    (∀ a, Option.map orderLink (alistLookup (cancel_order s oid).1.orders a) =
      Option.map orderLink (alistLookup s.orders a)) ∧
    (cancel_order s oid).1.order_counter = s.order_counter ∧
    (ActiveInv s → oid ∉ (cancel_order s oid).1.active_orders) := by
  rcases hl : alistLookup s.orders oid with _ | o
  · have heq : cancel_order s oid = (s, false) := by simp [cancel_order, hl]
    rw [heq]
    refine ⟨fun id h => h, fun id _ => rfl, fun a => rfl, rfl, ?_⟩
    intro hai hmem
    obtain ⟨o, ho, _⟩ := hai oid hmem
    rw [hl] at ho
    cases ho
  · by_cases hstatus : o.status = OrderStatus.pending ∨ o.status = OrderStatus.open_
    · have heq : (cancel_order s oid).1 =
          cancelRelated
            { s with
              orders :=
                alistInsert s.orders oid { o with status := OrderStatus.cancelled },
              active_orders := listRemove s.active_orders oid }
            o.related_orders := by
        simp [cancel_order, hl, hstatus]
      rw [heq]
      obtain ⟨p1, p2, p3, p4⟩ := cancelRelated_props o.related_orders
        { s with
          orders :=
            alistInsert s.orders oid { o with status := OrderStatus.cancelled },
          active_orders := listRemove s.active_orders oid }
      refine ⟨?_, ?_, ?_, ?_, ?_⟩
      · intro id hid2
        have h1 : id ∈ listRemove s.active_orders oid := p1 id hid2
        exact ((mem_listRemove_iff _ _ _).mp h1).1
      · intro id hid2
        have h1 : id ∈ listRemove s.active_orders oid := p1 id hid2
        have hne : id ≠ oid := ((mem_listRemove_iff _ _ _).mp h1).2
        rw [p2 id hid2]
        exact alistLookup_insert_ne s.orders oid _ id hne
      · intro a
        rw [p3 a]
        by_cases ha : a = oid
        · subst ha
          simp [alistLookup_insert_self, hl, orderLink]
        · simp [alistLookup_insert_ne, ha]
      · rw [p4]
      · intro _ hmem
        have h1 : oid ∈ listRemove s.active_orders oid := p1 oid hmem
        exact not_mem_listRemove _ _ h1
    · have heq : cancel_order s oid = (s, false) := by
        simp [cancel_order, hl, hstatus]
      rw [heq]
      refine ⟨fun id h => h, fun id _ => rfl, fun a => rfl, rfl, ?_⟩
      intro hai hmem
      obtain ⟨o2, ho2, hs2⟩ := hai oid hmem
      have ho3 : o = o2 := by
        have := hl.symm.trans ho2
        simpa using this
      rw [← ho3] at hs2
      exact hstatus hs2

theorem post_init_id (o : Order) : (Order.post_init o).id = o.id := by
  unfold Order.post_init
  split <;> rfl

theorem post_init_related (o : Order) :
    (Order.post_init o).related_orders = o.related_orders := by
  unfold Order.post_init
  split <;> rfl

/-- Inserting a fresh (counter+1) unlinked order preserves the link
invariants. -/
theorem fresh_insert_invariants (om om2 : OMState)
    (hsym : RelSymm om) (hcb : CounterBound om) (hid : IdMatch om)
    (now : Nat) (o : Order)
    (h2o : om2.orders = alistInsert om.orders
      { stamp := now, counter := om.order_counter + 1 } o)
    (h2c : om2.order_counter = om.order_counter + 1)
    (hoid : o.id = { stamp := now, counter := om.order_counter + 1 })
    (hrel : o.related_orders = []) :
    RelSymm om2 ∧ CounterBound om2 ∧ IdMatch om2 := by
  obtain ⟨hfr1, hfr2⟩ := counterBound_fresh om hcb now (om.order_counter + 1)
    (Nat.lt_succ_self _)
  refine ⟨?_, ?_, ?_⟩
  · intro a oa b ob ha hmem hb
    rw [h2o] at ha hb
    by_cases haid : a = { stamp := now, counter := om.order_counter + 1 }
    · subst haid
      rw [alistLookup_insert_self] at ha
      rw [← Option.some.inj ha, hrel] at hmem
      cases hmem
    · rw [alistLookup_insert_ne _ _ _ _ haid] at ha
      by_cases hbid : b = { stamp := now, counter := om.order_counter + 1 }
      · subst hbid
        exact absurd hmem (hfr2 a oa ha)
      · rw [alistLookup_insert_ne _ _ _ _ hbid] at hb
        exact hsym a oa b ob ha hmem hb
  · intro a oa ha
    rw [h2o] at ha
    rw [h2c]
    by_cases haid : a = { stamp := now, counter := om.order_counter + 1 }
    · subst haid
      rw [alistLookup_insert_self] at ha
      refine ⟨Nat.le_refl _, ?_⟩
      intro b hm
      rw [← Option.some.inj ha, hrel] at hm
      cases hm
    · rw [alistLookup_insert_ne _ _ _ _ haid] at ha
      have hbd := hcb a oa ha
      exact ⟨le_trans hbd.1 (Nat.le_succ _),
        fun b hm => le_trans (hbd.2 b hm) (Nat.le_succ _)⟩
  · intro a oa ha
    rw [h2o] at ha
    by_cases haid : a = { stamp := now, counter := om.order_counter + 1 }
    · subst haid
      rw [alistLookup_insert_self] at ha
      rw [← Option.some.inj ha]
      exact hoid
    · rw [alistLookup_insert_ne _ _ _ _ haid] at ha
      exact hid a oa ha

/-- Inserting a fresh order whose only (dangling) reference has a counter
within the new bound preserves the link invariants. -/
theorem dangling_insert_invariants (om om2 : OMState)
    (hsym : RelSymm om) (hcb : CounterBound om) (hid : IdMatch om)
    (now : Nat) (o : Order) (pid : OrderId)
    (h2o : om2.orders = alistInsert om.orders
      { stamp := now, counter := om.order_counter + 1 } o)
    (h2c : om2.order_counter = om.order_counter + 1)
    (hoid : o.id = { stamp := now, counter := om.order_counter + 1 })
    (hrel : o.related_orders = [pid])
    (hlp : alistLookup om.orders pid = none)
    (hpc : pid.counter ≤ om.order_counter + 1) :
    RelSymm om2 ∧ CounterBound om2 ∧ IdMatch om2 := by
  obtain ⟨hfr1, hfr2⟩ := counterBound_fresh om hcb now (om.order_counter + 1)
    (Nat.lt_succ_self _)
  refine ⟨?_, ?_, ?_⟩
  · intro a oa b ob ha hmem hb
    rw [h2o] at ha hb
    by_cases haid : a = { stamp := now, counter := om.order_counter + 1 }
    · subst haid
      rw [alistLookup_insert_self] at ha
      rw [← Option.some.inj ha, hrel] at hmem
      have hbpid : b = pid := by simpa using hmem
      subst hbpid
      by_cases hpn : b = { stamp := now, counter := om.order_counter + 1 }
      · rw [hpn, alistLookup_insert_self] at hb
        rw [← Option.some.inj hb, hrel]
        rw [← hpn]
        simp
      · rw [alistLookup_insert_ne _ _ _ _ hpn, hlp] at hb
        cases hb
    · rw [alistLookup_insert_ne _ _ _ _ haid] at ha
      by_cases hbid : b = { stamp := now, counter := om.order_counter + 1 }
      · subst hbid
        exact absurd hmem (hfr2 a oa ha)
      · rw [alistLookup_insert_ne _ _ _ _ hbid] at hb
        exact hsym a oa b ob ha hmem hb
  · intro a oa ha
    rw [h2o] at ha
    rw [h2c]
    by_cases haid : a = { stamp := now, counter := om.order_counter + 1 }
    · subst haid
      rw [alistLookup_insert_self] at ha
      refine ⟨Nat.le_refl _, ?_⟩
      intro b hm
      rw [← Option.some.inj ha, hrel] at hm
      have hbpid : b = pid := by simpa using hm
      rw [hbpid]
      exact hpc
    · rw [alistLookup_insert_ne _ _ _ _ haid] at ha
      have hbd := hcb a oa ha
      exact ⟨le_trans hbd.1 (Nat.le_succ _),
        fun b hm => le_trans (hbd.2 b hm) (Nat.le_succ _)⟩
  · intro a oa ha
    rw [h2o] at ha
    by_cases haid : a = { stamp := now, counter := om.order_counter + 1 }
    · subst haid
      rw [alistLookup_insert_self] at ha
      rw [← Option.some.inj ha]
      exact hoid
    · rw [alistLookup_insert_ne _ _ _ _ haid] at ha
      exact hid a oa ha

/-- Inserting a fresh order linked both ways with a stored parent
preserves the link invariants. -/
theorem linked_insert_invariants (om om2 : OMState)
    (hsym : RelSymm om) (hcb : CounterBound om) (hid : IdMatch om)
    (now : Nat) (o : Order) (pid : OrderId) (parentO : Order)
    (hlp : alistLookup om.orders pid = some parentO)
    (h2o : om2.orders = alistInsert
      (alistInsert om.orders pid
        { parentO with
            related_orders :=
              setAdd parentO.related_orders
                { stamp := now, counter := om.order_counter + 1 } })
      { stamp := now, counter := om.order_counter + 1 } o)
    (h2c : om2.order_counter = om.order_counter + 1)
    (hoid : o.id = { stamp := now, counter := om.order_counter + 1 })
    (hrel : o.related_orders = [pid]) :
    RelSymm om2 ∧ CounterBound om2 ∧ IdMatch om2 := by
  obtain ⟨hfr1, hfr2⟩ := counterBound_fresh om hcb now (om.order_counter + 1)
    (Nat.lt_succ_self _)
  have hpidne : pid ≠ { stamp := now, counter := om.order_counter + 1 } := by
    intro hcontra
    have hc1 : pid.counter ≤ om.order_counter := (hcb pid parentO hlp).1
    have hc2 := congrArg OrderId.counter hcontra
    simp only at hc2
    omega
  have hLnid : alistLookup om2.orders { stamp := now, counter := om.order_counter + 1 } =
      some o := by
    rw [h2o]
    exact alistLookup_insert_self _ _ _
  have hLpid : alistLookup om2.orders pid =
      some { parentO with
              related_orders :=
                setAdd parentO.related_orders
                  { stamp := now, counter := om.order_counter + 1 } } := by
    rw [h2o, alistLookup_insert_ne _ _ _ _ hpidne]
    exact alistLookup_insert_self _ _ _
  have hLother : ∀ k, k ≠ { stamp := now, counter := om.order_counter + 1 } →
      k ≠ pid → alistLookup om2.orders k = alistLookup om.orders k := by
    intro k hk1 hk2
    rw [h2o, alistLookup_insert_ne _ _ _ _ hk1, alistLookup_insert_ne _ _ _ _ hk2]
  refine ⟨?_, ?_, ?_⟩
  · intro a oa b ob ha hmem hb
    by_cases haid : a = { stamp := now, counter := om.order_counter + 1 }
    · subst haid
      rw [hLnid] at ha
      rw [← Option.some.inj ha, hrel] at hmem
      have hbpid : b = pid := by simpa using hmem
      subst hbpid
      rw [hLpid] at hb
      rw [← Option.some.inj hb]
      simp only
      rw [mem_setAdd_iff]
      exact Or.inr rfl
    · by_cases hapid : a = pid
      · subst hapid
        rw [hLpid] at ha
        have hoa := Option.some.inj ha
        rw [← hoa] at hmem
        simp only at hmem
        rw [mem_setAdd_iff] at hmem
        rcases hmem with hmemO | hbn
        · have hbnid : b ≠ { stamp := now, counter := om.order_counter + 1 } := by
            intro hbc
            subst hbc
            exact hfr2 a parentO hlp hmemO
          by_cases hbp : b = a
          · subst hbp
            rw [hLpid] at hb
            rw [← Option.some.inj hb]
            simp only
            rw [mem_setAdd_iff]
            exact Or.inl hmemO
          · rw [hLother b hbnid hbp] at hb
            exact hsym a parentO b ob hlp hmemO hb
        · subst hbn
          rw [hLnid] at hb
          rw [← Option.some.inj hb, hrel]
          simp
      · rw [hLother a haid hapid] at ha
        have hbnid : b ≠ { stamp := now, counter := om.order_counter + 1 } := by
          intro hbc
          subst hbc
          exact hfr2 a oa ha hmem
        by_cases hbp : b = pid
        · subst hbp
          rw [hLpid] at hb
          rw [← Option.some.inj hb]
          simp only
          rw [mem_setAdd_iff]
          exact Or.inl (hsym a oa b parentO ha hmem hlp)
        · rw [hLother b hbnid hbp] at hb
          exact hsym a oa b ob ha hmem hb
  · intro a oa ha
    rw [h2c]
    by_cases haid : a = { stamp := now, counter := om.order_counter + 1 }
    · subst haid
      rw [hLnid] at ha
      refine ⟨Nat.le_refl _, ?_⟩
      intro b hm
      rw [← Option.some.inj ha, hrel] at hm
      have hbpid : b = pid := by simpa using hm
      rw [hbpid]
      exact le_trans (hcb pid parentO hlp).1 (Nat.le_succ _)
    · by_cases hapid : a = pid
      · subst hapid
        rw [hLpid] at ha
        refine ⟨le_trans (hcb a parentO hlp).1 (Nat.le_succ _), ?_⟩
        intro b hm
        rw [← Option.some.inj ha] at hm
        simp only at hm
        rw [mem_setAdd_iff] at hm
        rcases hm with hm | hm
        · exact le_trans ((hcb a parentO hlp).2 b hm) (Nat.le_succ _)
        · rw [hm]
      · rw [hLother a haid hapid] at ha
        have hbd := hcb a oa ha
        exact ⟨le_trans hbd.1 (Nat.le_succ _),
          fun b hm => le_trans (hbd.2 b hm) (Nat.le_succ _)⟩
  · intro a oa ha
    by_cases haid : a = { stamp := now, counter := om.order_counter + 1 }
    · subst haid
      rw [hLnid] at ha
      rw [← Option.some.inj ha]
      exact hoid
    · by_cases hapid : a = pid
      · subst hapid
        rw [hLpid] at ha
        rw [← Option.some.inj ha]
        exact hid a parentO hlp
      · rw [hLother a haid hapid] at ha
        exact hid a oa ha

/-- A successful market-order fill at a nonzero price preserves the link
invariants: the synthesized pair is linked both ways with the parent and
with each other, and everything else is untouched. -/
theorem process_fill_attach_invariants (s : OMState) (oid : OrderId) (o : Order)
    (P : ℚ) (ft : Option Nat) (now : Nat)
    (hsym : RelSymm s) (hcb : CounterBound s) (hid : IdMatch s)
    (h : alistLookup s.orders oid = some o)
    (hst : o.status = OrderStatus.open_)
    (hty : o.order_type = OrderType.market)
    (hP : P ≠ 0) :
    RelSymm (process_fill s oid P ft now).1 ∧
    CounterBound (process_fill s oid P ft now).1 ∧
    IdMatch (process_fill s oid P ft now).1 := by
  have hoidc : oid.counter ≤ s.order_counter := (hcb oid o h).1
  have hne1 : ({ stamp := now, counter := s.order_counter + 1 } : OrderId) ≠ oid := by
    intro hc
    have hc2 := congrArg OrderId.counter hc
    simp only at hc2
    omega
  have hne2 : ({ stamp := now, counter := s.order_counter + 1 + 1 } : OrderId) ≠ oid := by
    intro hc
    have hc2 := congrArg OrderId.counter hc
    simp only at hc2
    omega
  have hid0 : o.id = oid := hid oid o h
  have H := process_fill_market_spec s oid o P ft now
    { stamp := now, counter := s.order_counter + 1 }
    { stamp := now, counter := s.order_counter + 1 + 1 }
    rfl rfl h hst hty hP hid0 hne1 hne2
  obtain ⟨hfrA, hfrB⟩ := counterBound_fresh s hcb now (s.order_counter + 1) (by omega)
  obtain ⟨hfrC, hfrD⟩ := counterBound_fresh s hcb now (s.order_counter + 1 + 1) (by omega)
  have Hcnt := H.2.2.1
  have Hsl := H.2.2.2.2.2.1
  have Htp := H.2.2.2.2.2.2.1
  have Hpar := H.2.2.2.2.2.2.2.1
  have Hframe := H.2.2.2.2.2.2.2.2
  refine ⟨?_, ?_, ?_⟩
  · intro a oa b ob ha hmem hb
    by_cases hao : a = oid
    · subst hao
      rw [Hpar] at ha
      have hmem2 : b ∈ setAdd (setAdd o.related_orders
          { stamp := now, counter := s.order_counter + 1 })
          { stamp := now, counter := s.order_counter + 1 + 1 } := by
        rw [← Option.some.inj ha] at hmem
        exact hmem
      rw [mem_setAdd_iff, mem_setAdd_iff] at hmem2
      rcases hmem2 with (hmemO | hbSL) | hbTP
      · by_cases hbo : b = a
        · subst hbo
          rw [Hpar] at hb
          rw [← Option.some.inj hb]
          have hgoal : b ∈ setAdd (setAdd o.related_orders
              { stamp := now, counter := s.order_counter + 1 })
              { stamp := now, counter := s.order_counter + 1 + 1 } := by
            rw [mem_setAdd_iff, mem_setAdd_iff]
            exact Or.inl (Or.inl hmemO)
          exact hgoal
        · have hbSLne : b ≠ { stamp := now, counter := s.order_counter + 1 } := by
            intro hc
            subst hc
            exact hfrB a o h hmemO
          have hbTPne : b ≠ { stamp := now, counter := s.order_counter + 1 + 1 } := by
            intro hc
            subst hc
            exact hfrD a o h hmemO
          rw [Hframe b hbo hbSLne hbTPne] at hb
          exact hsym a o b ob h hmemO hb
      · subst hbSL
        rw [Hsl] at hb
        rw [← Option.some.inj hb]
        simp
      · subst hbTP
        rw [Htp] at hb
        rw [← Option.some.inj hb]
        simp
    · by_cases haSL : a = { stamp := now, counter := s.order_counter + 1 }
      · subst haSL
        rw [Hsl] at ha
        have hmem2 : b ∈ [oid, { stamp := now, counter := s.order_counter + 1 + 1 }] := by
          rw [← Option.some.inj ha] at hmem
          exact hmem
        simp only [List.mem_cons, List.mem_singleton, List.not_mem_nil, or_false] at hmem2
        rcases hmem2 with hbo | hbTP
        · subst hbo
          rw [Hpar] at hb
          rw [← Option.some.inj hb]
          have hgoal : ({ stamp := now, counter := s.order_counter + 1 } : OrderId) ∈
              setAdd (setAdd o.related_orders
                { stamp := now, counter := s.order_counter + 1 })
                { stamp := now, counter := s.order_counter + 1 + 1 } := by
            rw [mem_setAdd_iff, mem_setAdd_iff]
            exact Or.inl (Or.inr rfl)
          exact hgoal
        · subst hbTP
          rw [Htp] at hb
          rw [← Option.some.inj hb]
          simp
      · by_cases haTP : a = { stamp := now, counter := s.order_counter + 1 + 1 }
        · subst haTP
          rw [Htp] at ha
          have hmem2 : b ∈ [oid, { stamp := now, counter := s.order_counter + 1 }] := by
            rw [← Option.some.inj ha] at hmem
            exact hmem
          simp only [List.mem_cons, List.mem_singleton, List.not_mem_nil, or_false] at hmem2
          rcases hmem2 with hbo | hbSL
          · subst hbo
            rw [Hpar] at hb
            rw [← Option.some.inj hb]
            have hgoal : ({ stamp := now, counter := s.order_counter + 1 + 1 } : OrderId) ∈
                setAdd (setAdd o.related_orders
                  { stamp := now, counter := s.order_counter + 1 })
                  { stamp := now, counter := s.order_counter + 1 + 1 } := by
              rw [mem_setAdd_iff]
              exact Or.inr rfl
            exact hgoal
          · subst hbSL
            rw [Hsl] at hb
            rw [← Option.some.inj hb]
            simp
        · rw [Hframe a hao haSL haTP] at ha
          have hbSLne : b ≠ { stamp := now, counter := s.order_counter + 1 } := by
            intro hc
            subst hc
            exact hfrB a oa ha hmem
          have hbTPne : b ≠ { stamp := now, counter := s.order_counter + 1 + 1 } := by
            intro hc
            subst hc
            exact hfrD a oa ha hmem
          by_cases hbo : b = oid
          · subst hbo
            rw [Hpar] at hb
            rw [← Option.some.inj hb]
            have hgoal : a ∈ setAdd (setAdd o.related_orders
                { stamp := now, counter := s.order_counter + 1 })
                { stamp := now, counter := s.order_counter + 1 + 1 } := by
              rw [mem_setAdd_iff, mem_setAdd_iff]
              exact Or.inl (Or.inl (hsym a oa b o ha hmem h))
            exact hgoal
          · rw [Hframe b hbo hbSLne hbTPne] at hb
            exact hsym a oa b ob ha hmem hb
  · intro a oa ha
    rw [Hcnt]
    by_cases hao : a = oid
    · subst hao
      rw [Hpar] at ha
      refine ⟨by omega, ?_⟩
      intro b hm
      have hm2 : b ∈ setAdd (setAdd o.related_orders
          { stamp := now, counter := s.order_counter + 1 })
          { stamp := now, counter := s.order_counter + 1 + 1 } := by
        rw [← Option.some.inj ha] at hm
        exact hm
      rw [mem_setAdd_iff, mem_setAdd_iff] at hm2
      rcases hm2 with (hm2 | hm2) | hm2
      · exact le_trans ((hcb a o h).2 b hm2) (by omega)
      · rw [hm2]
        exact Nat.le_succ _
      · rw [hm2]
    · by_cases haSL : a = { stamp := now, counter := s.order_counter + 1 }
      · subst haSL
        rw [Hsl] at ha
        refine ⟨Nat.le_succ _, ?_⟩
        intro b hm
        have hm2 : b ∈ [oid, { stamp := now, counter := s.order_counter + 1 + 1 }] := by
          rw [← Option.some.inj ha] at hm
          exact hm
        simp only [List.mem_cons, List.mem_singleton, List.not_mem_nil, or_false] at hm2
        rcases hm2 with hm2 | hm2
        · rw [hm2]
          omega
        · rw [hm2]
      · by_cases haTP : a = { stamp := now, counter := s.order_counter + 1 + 1 }
        · subst haTP
          rw [Htp] at ha
          refine ⟨Nat.le_refl _, ?_⟩
          intro b hm
          have hm2 : b ∈ [oid, { stamp := now, counter := s.order_counter + 1 }] := by
            rw [← Option.some.inj ha] at hm
            exact hm
          simp only [List.mem_cons, List.mem_singleton, List.not_mem_nil, or_false] at hm2
          rcases hm2 with hm2 | hm2
          · rw [hm2]
            omega
          · rw [hm2]
            exact Nat.le_succ _
        · rw [Hframe a hao haSL haTP] at ha
          have hbd := hcb a oa ha
          exact ⟨by omega, fun b hm => by
            have := hbd.2 b hm
            omega⟩
  · intro a oa ha
    by_cases hao : a = oid
    · subst hao
      rw [Hpar] at ha
      rw [← Option.some.inj ha]
      exact hid0
    · by_cases haSL : a = { stamp := now, counter := s.order_counter + 1 }
      · subst haSL
        rw [Hsl] at ha
        rw [← Option.some.inj ha]
      · by_cases haTP : a = { stamp := now, counter := s.order_counter + 1 + 1 }
        · subst haTP
          rw [Htp] at ha
          rw [← Option.some.inj ha]
        · rw [Hframe a hao haSL haTP] at ha
          exact hid a oa ha

/-- The state reached from the empty manager by a createStopOrder naming
the not-yet-existing parent id (5,2), followed in the same tick by a
create_market_order, which generates exactly that id. -/
def danglingParentOM : OMState :=
  (create_market_order
    (create_stop_order emptyOM "X" OrderSide.sell 1 100 OrderType.stop_loss
      (some ⟨5, 2⟩) 5).1
    "Y" OrderSide.buy 1 true 5).1

/-- Counterexample to C4 as frozen: after createStopOrder with an
unresolvable parentId followed by a create call that generates that very
id, order (5,1) references (5,2) but (5,2)'s relation set is empty — the
symmetry of related_orders over stored pairs is broken. -/
theorem relatedOrders_symmetry_broken_by_dangling_parent :
    alistLookup danglingParentOM.orders ⟨5, 1⟩ =
      some { id := ⟨5, 1⟩, asset := "X", order_type := OrderType.stop_loss,
             side := OrderSide.sell, size := 1, price := some 100,
             status := OrderStatus.pending, timestamp := 5,
             related_orders := [⟨5, 2⟩] } ∧
    alistLookup danglingParentOM.orders ⟨5, 2⟩ =
      some { id := ⟨5, 2⟩, asset := "Y", order_type := OrderType.market,
             side := OrderSide.buy, size := 1, price := none,
             status := OrderStatus.pending, timestamp := 5,
             related_orders := [] } := by
  constructor <;>
    simp [danglingParentOM, emptyOM, sampleConfig, create_market_order,
      create_stop_order, generate_order_id, Order.post_init, alistLookup,
      alistInsert, setAdd]

/-- C4 (amended: symmetry is preserved by every operation provided each
createStopOrder parentId either resolves to a stored order at call time
or has a counter not exceeding the next generated one, so that it can
never coincide with an id generated later; the counterexample shows the
claim fails without this proviso): the symmetry of related_orders over
stored pairs — together with the counter bound and key consistency it
needs — is preserved by createMarketOrder, createLimitOrder,
createStopOrder, processFill and cancelOrder. -/
theorem relatedOrders_symmetry_preserved (om : OMState)
    (hsym : RelSymm om) (hcb : CounterBound om) (hid : IdMatch om) :
    (∀ (asset : String) (side : OrderSide) (size : ℚ) (att : Bool) (now : Nat),
      RelSymm (create_market_order om asset side size att now).1 ∧
      CounterBound (create_market_order om asset side size att now).1 ∧
      IdMatch (create_market_order om asset side size att now).1) ∧
    (∀ (asset : String) (side : OrderSide) (size price : ℚ) (now : Nat),
      RelSymm (create_limit_order om asset side size price now).1 ∧
      CounterBound (create_limit_order om asset side size price now).1 ∧
      IdMatch (create_limit_order om asset side size price now).1) ∧
    (∀ (asset : String) (side : OrderSide) (size stop_price : ℚ) (ot : OrderType)
        (parent : Option OrderId) (now : Nat),
      (∀ pid, parent = some pid →
        (alistLookup om.orders pid).isSome ∨ pid.counter ≤ om.order_counter + 1) →
      RelSymm (create_stop_order om asset side size stop_price ot parent now).1 ∧
      CounterBound (create_stop_order om asset side size stop_price ot parent now).1 ∧
      IdMatch (create_stop_order om asset side size stop_price ot parent now).1) ∧
    (∀ (oid : OrderId) (fp : ℚ) (ft : Option Nat) (now : Nat),
      RelSymm (process_fill om oid fp ft now).1 ∧
      CounterBound (process_fill om oid fp ft now).1 ∧
      IdMatch (process_fill om oid fp ft now).1) ∧
    (∀ oid : OrderId,
      RelSymm (cancel_order om oid).1 ∧
      CounterBound (cancel_order om oid).1 ∧
      IdMatch (cancel_order om oid).1) := by
  refine ⟨?_, ?_, ?_, ?_, ?_⟩
  · intro asset side size att now
    have hspec := create_market_order_spec om asset side size att now
    refine fresh_insert_invariants om _ hsym hcb hid now
      { id := { stamp := now, counter := om.order_counter + 1 },
        asset := asset, order_type := OrderType.market, side := side,
        size := size, price := none, status := OrderStatus.pending,
        timestamp := now } ?_ ?_ rfl rfl
    · rw [hspec]
    · rw [hspec]
  · intro asset side size price now
    have hspec := create_limit_order_spec om asset side size price now
    refine fresh_insert_invariants om _ hsym hcb hid now
      { id := { stamp := now, counter := om.order_counter + 1 },
        asset := asset, order_type := OrderType.limit, side := side,
        size := size, price := some price, status := OrderStatus.pending,
        timestamp := now } ?_ ?_ rfl rfl
    · rw [hspec]
    · rw [hspec]
  · intro asset side size stop_price ot parent now hpid
    rcases parent with _ | pid
    · refine fresh_insert_invariants om _ hsym hcb hid now
        (Order.post_init
          { id := { stamp := now, counter := om.order_counter + 1 },
            asset := asset, order_type := ot, side := side, size := size,
            price := some stop_price, status := OrderStatus.pending,
            timestamp := now }) ?_ ?_ ?_ ?_
      · simp [create_stop_order, generate_order_id]
      · simp [create_stop_order, generate_order_id]
      · simp [post_init_id]
      · simp [post_init_related]
    · rcases hlp : alistLookup om.orders pid with _ | parentO
      · have hpc : pid.counter ≤ om.order_counter + 1 := by
          rcases hpid pid rfl with hs | hs
          · rw [hlp] at hs
            simp at hs
          · exact hs
        refine dangling_insert_invariants om _ hsym hcb hid now
          { Order.post_init
              { id := { stamp := now, counter := om.order_counter + 1 },
                asset := asset, order_type := ot, side := side, size := size,
                price := some stop_price, status := OrderStatus.pending,
                timestamp := now } with
            related_orders :=
              setAdd (Order.post_init
                { id := { stamp := now, counter := om.order_counter + 1 },
                  asset := asset, order_type := ot, side := side, size := size,
                  price := some stop_price, status := OrderStatus.pending,
                  timestamp := now }).related_orders pid }
          pid ?_ ?_ ?_ ?_ hlp hpc
        · simp [create_stop_order, generate_order_id, hlp]
        · simp [create_stop_order, generate_order_id, hlp]
        · simp [post_init_id]
        · simp [post_init_related]
      · refine linked_insert_invariants om _ hsym hcb hid now
          { Order.post_init
              { id := { stamp := now, counter := om.order_counter + 1 },
                asset := asset, order_type := ot, side := side, size := size,
                price := some stop_price, status := OrderStatus.pending,
                timestamp := now } with
            related_orders :=
              setAdd (Order.post_init
                { id := { stamp := now, counter := om.order_counter + 1 },
                  asset := asset, order_type := ot, side := side, size := size,
                  price := some stop_price, status := OrderStatus.pending,
                  timestamp := now }).related_orders pid }
          pid parentO hlp ?_ ?_ ?_ ?_
        · simp [create_stop_order, generate_order_id, hlp]
        · simp [create_stop_order, generate_order_id, hlp]
        · simp [post_init_id]
        · simp [post_init_related]
  · intro oid fp ft now
    rcases hl : alistLookup om.orders oid with _ | o
    · have heq : (process_fill om oid fp ft now).1 = om := by
        simp [process_fill, hl]
      rw [heq]
      exact ⟨hsym, hcb, hid⟩
    · by_cases hst : o.status = OrderStatus.open_
      · by_cases hna : o.order_type ≠ OrderType.market ∨ fp = 0
        · have hspec := process_fill_no_attach_spec om oid o fp ft now hl hst hna
          have hre : ∀ a, Option.map orderLink
              (alistLookup (process_fill om oid fp ft now).1.orders a) =
              Option.map orderLink (alistLookup om.orders a) := by
            intro a
            rw [hspec]
            by_cases ha : a = oid
            · subst ha
              simp [alistLookup_insert_self, hl, orderLink]
            · simp [alistLookup_insert_ne, ha]
          have hcnt : om.order_counter ≤
              (process_fill om oid fp ft now).1.order_counter := by
            rw [hspec]
          have htr := invariants_of_relEq om _ hre hcnt
          exact ⟨htr.1 hsym, htr.2.1 hcb, htr.2.2 hid⟩
        · push_neg at hna
          exact process_fill_attach_invariants om oid o fp ft now hsym hcb hid
            hl hst hna.1 hna.2
      · have heq : (process_fill om oid fp ft now).1 = om := by
          simp [process_fill, hl, hst]
        rw [heq]
        exact ⟨hsym, hcb, hid⟩
  · intro oid
    obtain ⟨_, _, p3, p4, _⟩ := cancel_order_props om oid
    have htr := invariants_of_relEq om _ p3 (le_of_eq p4.symm)
    exact ⟨htr.1 hsym, htr.2.1 hcb, htr.2.2 hid⟩

/-- Witness for C4: from the empty manager, createStopOrder with the
unresolvable but safely-bounded parentId (3,0) keeps the table invariants. -/
theorem relatedOrders_symmetry_preserved_witness :
    RelSymm (create_stop_order emptyOM "X" OrderSide.sell 1 100
      OrderType.stop_loss (some ⟨3, 0⟩) 5).1 ∧
    CounterBound (create_stop_order emptyOM "X" OrderSide.sell 1 100
      OrderType.stop_loss (some ⟨3, 0⟩) 5).1 ∧
    IdMatch (create_stop_order emptyOM "X" OrderSide.sell 1 100
      OrderType.stop_loss (some ⟨3, 0⟩) 5).1 := by
  have hsym : RelSymm emptyOM := by
    intro a oa b ob ha
    simp [emptyOM] at ha
  have hcb : CounterBound emptyOM := by
    intro a oa ha
    simp [emptyOM] at ha
  have hid : IdMatch emptyOM := by
    intro a oa ha
    simp [emptyOM] at ha
  have H := relatedOrders_symmetry_preserved emptyOM hsym hcb hid
  exact H.2.2.1 "X" OrderSide.sell 1 100 OrderType.stop_loss (some ⟨3, 0⟩) 5
    (by
      intro pid hp
      rw [← Option.some.inj hp]
      right
      simp [emptyOM])

/-- Membership in get_active_orders with a non-empty asset filter. -/
theorem mem_get_active_orders (om : OMState) (a : String) (ha : a ≠ "") (o : Order) :
    o ∈ get_active_orders om (some a) ↔
      (∃ id ∈ om.active_orders, alistLookup om.orders id = some o) ∧ o.asset = a := by
  simp [get_active_orders, ha, List.mem_filter, List.mem_filterMap]

/-- The close-position cancellation loop only shrinks the active set,
leaves still-active entries untouched, and deactivates every protective
order of the snapshot (given each active id resolves to a pending/open
order). -/
theorem cancelStops_props (snapshot : List Order) : ∀ (om : OMState),
    ActiveInv om →
    (∀ id, id ∈ (cancelStops om snapshot).active_orders → id ∈ om.active_orders) ∧
    (∀ id, id ∈ (cancelStops om snapshot).active_orders →
      alistLookup (cancelStops om snapshot).orders id = alistLookup om.orders id) ∧
    (∀ o ∈ snapshot,
      (o.order_type = OrderType.stop_loss ∨ o.order_type = OrderType.take_profit) →
      o.id ∉ (cancelStops om snapshot).active_orders) ∧
    (cancelStops om snapshot).order_counter = om.order_counter := by
  induction snapshot with
  | nil =>
    intro om _
    refine ⟨fun id h => h, fun id _ => rfl, ?_, rfl⟩
    intro o ho
    cases ho
  | cons o rest ih =>
    intro om hai
    by_cases hty : o.order_type = OrderType.stop_loss ∨
        o.order_type = OrderType.take_profit
    · have heq : cancelStops om (o :: rest) =
          cancelStops (cancel_order om o.id).1 rest := by
        simp [cancelStops, hty]
      rw [heq]
      obtain ⟨c1, c2, c3, c4, c5⟩ := cancel_order_props om o.id
      have hai2 : ActiveInv (cancel_order om o.id).1 := by
        intro id hid2
        obtain ⟨o2, ho2, hs2⟩ := hai id (c1 id hid2)
        exact ⟨o2, (c2 id hid2).trans ho2, hs2⟩
      obtain ⟨ih1, ih2, ih3, ih4⟩ := ih (cancel_order om o.id).1 hai2
      refine ⟨?_, ?_, ?_, ih4.trans c4⟩
      · intro id hid2
        exact c1 id (ih1 id hid2)
      · intro id hid2
        exact (ih2 id hid2).trans (c2 id (ih1 id hid2))
      · intro o2 ho2 hty2
        rcases List.mem_cons.mp ho2 with heq2 | ho2
        · subst heq2
          intro hmem
          exact c5 hai (ih1 _ hmem)
        · exact ih3 o2 ho2 hty2
    · have heq : cancelStops om (o :: rest) = cancelStops om rest := by
        simp [cancelStops, hty]
      rw [heq]
      obtain ⟨ih1, ih2, ih3, ih4⟩ := ih om hai
      refine ⟨ih1, ih2, ?_, ih4⟩
      intro o2 ho2 hty2
      rcases List.mem_cons.mp ho2 with heq2 | ho2
      · subst heq2
        exact absurd hty2 hty
      · exact ih3 o2 ho2 hty2

/-- A successful fill (at any price) keeps the active-set and key
invariants: the pair it may synthesize is pending and active, the filled
parent is deactivated, and everything else is untouched. -/
theorem process_fill_wellformed (s : OMState) (oid : OrderId) (o : Order)
    (P : ℚ) (ft : Option Nat) (now : Nat)
    (hai : ActiveInv s) (hsym : RelSymm s) (hcb : CounterBound s) (hid : IdMatch s)
    (h : alistLookup s.orders oid = some o)
    (hst : o.status = OrderStatus.open_) :
    ActiveInv (process_fill s oid P ft now).1 ∧
    IdMatch (process_fill s oid P ft now).1 := by
  obtain ⟨hfrA, hfrB⟩ := counterBound_fresh s hcb now (s.order_counter + 1) (by omega)
  obtain ⟨hfrC, hfrD⟩ := counterBound_fresh s hcb now (s.order_counter + 1 + 1) (by omega)
  by_cases hna : o.order_type ≠ OrderType.market ∨ P = 0
  · have hspec := process_fill_no_attach_spec s oid o P ft now h hst hna
    rw [hspec]
    constructor
    · intro id hmem
      have hmem2 : id ∈ listRemove s.active_orders oid := hmem
      obtain ⟨hin, hne⟩ := (mem_listRemove_iff _ _ _).mp hmem2
      obtain ⟨o2, ho2, hs2⟩ := hai id hin
      have hlk : alistLookup (alistInsert s.orders oid
          { o with status := OrderStatus.filled, fill_price := some P,
                   fill_time := some (ft.getD now) }) id = alistLookup s.orders id :=
        alistLookup_insert_ne _ _ _ _ hne
      exact ⟨o2, hlk.trans ho2, hs2⟩
    · intro a oa ha
      by_cases hao : a = oid
      · subst hao
        have hlk := alistLookup_insert_self s.orders a
          { o with status := OrderStatus.filled, fill_price := some P,
                   fill_time := some (ft.getD now) }
        have ha2 := hlk.symm.trans ha
        rw [← Option.some.inj ha2]
        exact hid a o h
      · have hlk : alistLookup (alistInsert s.orders oid
            { o with status := OrderStatus.filled, fill_price := some P,
                     fill_time := some (ft.getD now) }) a = alistLookup s.orders a :=
          alistLookup_insert_ne _ _ _ _ hao
        exact hid a oa (hlk.symm.trans ha)
  · push_neg at hna
    have hty := hna.1
    have hP := hna.2
    have hne1 : ({ stamp := now, counter := s.order_counter + 1 } : OrderId) ≠ oid := by
      intro hc
      have hc2 := congrArg OrderId.counter hc
      simp only at hc2
      have := (hcb oid o h).1
      omega
    have hne2 : ({ stamp := now, counter := s.order_counter + 1 + 1 } : OrderId) ≠ oid := by
      intro hc
      have hc2 := congrArg OrderId.counter hc
      simp only at hc2
      have := (hcb oid o h).1
      omega
    have hid0 : o.id = oid := hid oid o h
    have H := process_fill_market_spec s oid o P ft now
      { stamp := now, counter := s.order_counter + 1 }
      { stamp := now, counter := s.order_counter + 1 + 1 }
      rfl rfl h hst hty hP hid0 hne1 hne2
    constructor
    · intro id hmem
      rw [H.2.2.2.2.1] at hmem
      rw [mem_setAdd_iff, mem_setAdd_iff] at hmem
      rcases hmem with (hmem | hmem) | hmem
      · obtain ⟨hin, hne⟩ := (mem_listRemove_iff _ _ _).mp hmem
        obtain ⟨o2, ho2, hs2⟩ := hai id hin
        have hneSL : id ≠ { stamp := now, counter := s.order_counter + 1 } := by
          intro hc
          rw [hc] at ho2
          rw [hfrA] at ho2
          cases ho2
        have hneTP : id ≠ { stamp := now, counter := s.order_counter + 1 + 1 } := by
          intro hc
          rw [hc] at ho2
          rw [hfrC] at ho2
          cases ho2
        refine ⟨o2, ?_, hs2⟩
        rw [H.2.2.2.2.2.2.2.2 id hne hneSL hneTP]
        exact ho2
      · subst hmem
        exact ⟨_, H.2.2.2.2.2.1, Or.inl rfl⟩
      · subst hmem
        exact ⟨_, H.2.2.2.2.2.2.1, Or.inl rfl⟩
    · exact (process_fill_attach_invariants s oid o P ft now hsym hcb hid
        h hst hty hP).2.2

/-- The already-filled market order backing the sample open position. -/
def sampleHeldOrder : Order :=
  { id := ⟨1, 1⟩, asset := "BTC/USD", order_type := OrderType.market,
    side := OrderSide.buy, size := 1, price := none,
    status := OrderStatus.filled, timestamp := 1,
    fill_price := some 100, fill_time := some 1, entry_price := some 100 }

/-- An orchestrator state holding one open BTC/USD buy position entered
at 100, with default alert thresholds. -/
def sampleTS : TSState :=
  { pnl := { config := { stop_loss := none, profit_target := none },
             positions := [] },
    om := { config := sampleConfig, orders := [(⟨1, 1⟩, sampleHeldOrder)],
            active_orders := [], fills := [], order_counter := 1 },
    risk_config := roomyCfg,
    active_positions := [("BTC/USD",
      { order_id := ⟨1, 1⟩, side := OrderSide.buy, size := 1, entry_price := 100 })],
    account_balance := 0 }

/-- Witness for C6: a drop to 90 (-10%, beyond the default 1% stop-loss
threshold) alerts and removes BTC/USD from the active positions. -/
theorem updatePosition_stop_loss_closes_position_witness :
    (TSState.update_position sampleTS "BTC/USD" 90 7).2 =
      [{ alert_type := "stop_loss", message := "Stop loss triggered" }] ∧
    alistLookup (TSState.update_position sampleTS "BTC/USD" 90 7).1.active_positions
      "BTC/USD" = none := by
  have hap : alistLookup sampleTS.active_positions "BTC/USD" =
      some { order_id := ⟨1, 1⟩, side := OrderSide.buy, size := 1,
             entry_price := 100 } := by
    simp [sampleTS, alistLookup]
  have hord : get_order sampleTS.om (⟨1, 1⟩ : OrderId) = some sampleHeldOrder := by
    simp [sampleTS, get_order, alistLookup]
  have H := updatePosition_stop_loss_closes_position sampleTS "BTC/USD" 90 7
  exact H.1 { order_id := ⟨1, 1⟩, side := OrderSide.buy, size := 1, entry_price := 100 }
    sampleHeldOrder 100 hap hord rfl (by norm_num)
    (by simp [side_adjusted_pnl_pct, sampleTS, sampleHeldOrder] <;> norm_num)

/- ### C10: closing a position leaves no active protective orders -/

/-- No stop-loss or take-profit order of the asset is in the manager's
active set. -/
def NoActiveProtective (om : OMState) (asset : String) : Prop :=
  ∀ o ∈ get_active_orders om (some asset),
    ¬(o.order_type = OrderType.stop_loss ∨ o.order_type = OrderType.take_profit)

/-- Cancelling the snapshot of an asset's active orders deactivates every
protective order of that asset. -/
theorem cancelStops_snapshot_clean (om3 : OMState) (asset : String) (hasset : asset ≠ "")
    (hai3 : ActiveInv om3) (hid3 : IdMatch om3) :
    NoActiveProtective (cancelStops om3 (get_active_orders om3 (some asset))) asset := by
  intro o hmem hty
  obtain ⟨cs1, cs2, cs3, _⟩ :=
    cancelStops_props (get_active_orders om3 (some asset)) om3 hai3
  obtain ⟨⟨id, hidm, hlook⟩, hassetEq⟩ :=
    (mem_get_active_orders _ asset hasset o).mp hmem
  have hidm3 : id ∈ om3.active_orders := cs1 id hidm
  have hlook3 : alistLookup om3.orders id = some o := by
    rw [← cs2 id hidm]
    exact hlook
  have hosnap : o ∈ get_active_orders om3 (some asset) :=
    (mem_get_active_orders om3 asset hasset o).mpr ⟨⟨id, hidm3, hlook3⟩, hassetEq⟩
  have hkill := cs3 o hosnap hty
  have hoid : o.id = id := hid3 id o hlook3
  rw [hoid] at hkill
  exact hkill hidm

/-- The order-manager component of close_position's flow: create the
opposite-side closing market order, register it open at the position's
entry price, fill it at the closing price, then cancel the asset's
remaining active protective orders. -/
def closeFlowOM (om : OMState) (asset : String) (cs : OrderSide)
    (sz entry price : ℚ) (now : Nat) : OMState :=
  let r := om.create_market_order asset cs sz false now
  let order := { r.2 with entry_price := some entry, status := OrderStatus.open_ }
  let om2 := { r.1 with orders := alistInsert r.1.orders order.id order }
  let om3 := (om2.process_fill order.id price none now).1
  cancelStops om3 (om3.get_active_orders (some asset))

/-- The order-manager component of close_position is exactly closeFlowOM,
and the close succeeds whenever the asset has an active position. -/
theorem close_position_om_eq (s : TSState) (asset : String) (price : ℚ) (now : Nat)
    (pos : ActivePos) (hap : alistLookup s.active_positions asset = some pos) :
    (close_position s asset price now).1.om =
      closeFlowOM s.om asset
        (if pos.side = OrderSide.buy then OrderSide.sell else OrderSide.buy)
        pos.size pos.entry_price price now ∧
    (close_position s asset price now).2.isSome = true := by
  constructor
  · simp [close_position, closeFlowOM, hap]
  · simp [close_position, hap]

/-- Explicit form of the state after creating the closing order and
registering it open at the entry price. -/
theorem closeFlowOM_eq (om : OMState) (asset : String) (cs : OrderSide)
    (sz entry price : ℚ) (now : Nat) (om2 : OMState) (o2 : Order)
    (ho2 : o2 = { id := { stamp := now, counter := om.order_counter + 1 },
                  asset := asset, order_type := OrderType.market, side := cs,
                  size := sz, price := none, status := OrderStatus.open_,
                  timestamp := now, entry_price := some entry })
    (hom2 : om2 = { om with
        orders := alistInsert
          (alistInsert om.orders { stamp := now, counter := om.order_counter + 1 }
            { id := { stamp := now, counter := om.order_counter + 1 },
              asset := asset, order_type := OrderType.market, side := cs,
              size := sz, price := none, status := OrderStatus.pending,
              timestamp := now })
          { stamp := now, counter := om.order_counter + 1 } o2,
        active_orders := setAdd om.active_orders
          { stamp := now, counter := om.order_counter + 1 },
        order_counter := om.order_counter + 1 }) :
    closeFlowOM om asset cs sz entry price now =
      cancelStops
        (om2.process_fill { stamp := now, counter := om.order_counter + 1 }
          price none now).1
        ((om2.process_fill { stamp := now, counter := om.order_counter + 1 }
          price none now).1.get_active_orders (some asset)) := by
  subst ho2 hom2
  simp [closeFlowOM, create_market_order_spec]

/-- Registering a fresh open order on top of its freshly created pending
version (the direct status mutation of close_position) keeps all the
manager invariants, and the new entry is stored under the fresh id. -/
theorem register_insert_wellformed (om om2 : OMState) (now : Nat) (o1 o2 : Order)
    (hai : ActiveInv om) (hsym : RelSymm om) (hcb : CounterBound om) (hid : IdMatch om)
    (ho1id : o1.id = { stamp := now, counter := om.order_counter + 1 })
    (ho1rel : o1.related_orders = [])
    (ho2id : o2.id = { stamp := now, counter := om.order_counter + 1 })
    (ho2rel : o2.related_orders = [])
    (ho2st : o2.status = OrderStatus.pending ∨ o2.status = OrderStatus.open_)
    (h2o : om2.orders = alistInsert
      (alistInsert om.orders { stamp := now, counter := om.order_counter + 1 } o1)
      { stamp := now, counter := om.order_counter + 1 } o2)
    (h2a : om2.active_orders = setAdd om.active_orders
      { stamp := now, counter := om.order_counter + 1 })
    (h2c : om2.order_counter = om.order_counter + 1) :
    ActiveInv om2 ∧ RelSymm om2 ∧ CounterBound om2 ∧ IdMatch om2 ∧
    alistLookup om2.orders { stamp := now, counter := om.order_counter + 1 } =
      some o2 := by
  have hfr := counterBound_fresh om hcb now (om.order_counter + 1) (Nat.lt_succ_self _)
  obtain ⟨omA, homA⟩ : ∃ omA : OMState, omA = { om with
      orders := alistInsert om.orders
        { stamp := now, counter := om.order_counter + 1 } o1,
      order_counter := om.order_counter + 1 } := ⟨_, rfl⟩
  obtain ⟨hsymA, hcbA, hidA⟩ := fresh_insert_invariants om omA hsym hcb hid now o1
    (by rw [homA]) (by rw [homA]) ho1id ho1rel
  have hre : ∀ a, Option.map orderLink (alistLookup om2.orders a) =
      Option.map orderLink (alistLookup omA.orders a) := by
    intro a
    by_cases hax : a = { stamp := now, counter := om.order_counter + 1 }
    · subst hax
      have e1 : alistLookup om2.orders
          { stamp := now, counter := om.order_counter + 1 } = some o2 := by
        rw [h2o]
        exact alistLookup_insert_self _ _ _
      have e2 : alistLookup omA.orders
          { stamp := now, counter := om.order_counter + 1 } = some o1 := by
        rw [homA]
        exact alistLookup_insert_self _ _ _
      rw [e1, e2]
      simp [orderLink, ho1id, ho2id, ho1rel, ho2rel]
    · have e1 : alistLookup om2.orders a = alistLookup om.orders a := by
        rw [h2o, alistLookup_insert_ne _ _ _ _ hax, alistLookup_insert_ne _ _ _ _ hax]
      have e2 : alistLookup omA.orders a = alistLookup om.orders a := by
        rw [homA]
        exact alistLookup_insert_ne _ _ _ _ hax
      rw [e1, e2]
  have hc : omA.order_counter ≤ om2.order_counter := by
    rw [h2c]
    exact Nat.le_of_eq (by rw [homA])
  obtain ⟨tS, tC, tI⟩ := invariants_of_relEq omA om2 hre hc
  refine ⟨?_, tS hsymA, tC hcbA, tI hidA, ?_⟩
  · intro id hmem
    rw [h2a] at hmem
    rcases (mem_setAdd_iff _ _ _).mp hmem with hin | hinid
    · obtain ⟨o3, ho3, hs3⟩ := hai id hin
      have hne : id ≠ ({ stamp := now, counter := om.order_counter + 1 } : OrderId) := by
        intro hc2
        rw [hc2, hfr.1] at ho3
        cases ho3
      refine ⟨o3, ?_, hs3⟩
      rw [h2o, alistLookup_insert_ne _ _ _ _ hne, alistLookup_insert_ne _ _ _ _ hne]
      exact ho3
    · subst hinid
      refine ⟨o2, ?_, ho2st⟩
      rw [h2o]
      exact alistLookup_insert_self _ _ _
  · rw [h2o]
    exact alistLookup_insert_self _ _ _

/-- The close flow leaves no active protective order of the asset, and at
a nonzero closing price the fill synthesizes the protective pair (the
counter advances by exactly 3: the closing order plus the pair). -/
theorem closeFlowOM_props (om : OMState) (asset : String) (cs : OrderSide)
    (sz entry price : ℚ) (now : Nat) (hasset : asset ≠ "")
    (hai : ActiveInv om) (hsym : RelSymm om) (hcb : CounterBound om)
    (hid : IdMatch om) :
    NoActiveProtective (closeFlowOM om asset cs sz entry price now) asset ∧
    (price ≠ 0 → (closeFlowOM om asset cs sz entry price now).order_counter =
      om.order_counter + 3) := by
  obtain ⟨om2, o2, ho2, hom2⟩ :
      ∃ (om2 : OMState) (o2 : Order),
        o2 = { id := { stamp := now, counter := om.order_counter + 1 },
               asset := asset, order_type := OrderType.market, side := cs,
               size := sz, price := none, status := OrderStatus.open_,
               timestamp := now, entry_price := some entry } ∧
        om2 = { om with
          orders := alistInsert
            (alistInsert om.orders { stamp := now, counter := om.order_counter + 1 }
              { id := { stamp := now, counter := om.order_counter + 1 },
                asset := asset, order_type := OrderType.market, side := cs,
                size := sz, price := none, status := OrderStatus.pending,
                timestamp := now })
            { stamp := now, counter := om.order_counter + 1 }
            { id := { stamp := now, counter := om.order_counter + 1 },
              asset := asset, order_type := OrderType.market, side := cs,
              size := sz, price := none, status := OrderStatus.open_,
              timestamp := now, entry_price := some entry },
          active_orders := setAdd om.active_orders
            { stamp := now, counter := om.order_counter + 1 },
          order_counter := om.order_counter + 1 } := ⟨_, _, rfl, rfl⟩
  have heq := closeFlowOM_eq om asset cs sz entry price now om2 o2 ho2
    (by rw [hom2, ho2])
  obtain ⟨hai2, hsym2, hcb2, hid2, hlook2⟩ :=
    register_insert_wellformed om om2 now
      { id := { stamp := now, counter := om.order_counter + 1 },
        asset := asset, order_type := OrderType.market, side := cs,
        size := sz, price := none, status := OrderStatus.pending,
        timestamp := now }
      o2 hai hsym hcb hid rfl rfl (by rw [ho2]) (by rw [ho2])
      (Or.inr (by rw [ho2])) (by rw [hom2, ho2]) (by rw [hom2]) (by rw [hom2])
  have hcc : om2.order_counter = om.order_counter + 1 := by rw [hom2]
  have hwf3 := process_fill_wellformed om2
    { stamp := now, counter := om.order_counter + 1 } o2 price none now
    hai2 hsym2 hcb2 hid2 hlook2 (by rw [ho2])
  rw [heq]
  constructor
  · exact cancelStops_snapshot_clean _ asset hasset hwf3.1 hwf3.2
  · intro hP
    obtain ⟨_, _, _, hcnt⟩ := cancelStops_props
      ((om2.process_fill { stamp := now, counter := om.order_counter + 1 }
        price none now).1.get_active_orders (some asset))
      (om2.process_fill { stamp := now, counter := om.order_counter + 1 }
        price none now).1 hwf3.1
    rw [hcnt]
    have hne1 : ({ stamp := now, counter := om2.order_counter + 1 } : OrderId) ≠
        { stamp := now, counter := om.order_counter + 1 } := by
      intro hc2
      have hc3 := congrArg OrderId.counter hc2
      simp only at hc3
      omega
    have hne2 : ({ stamp := now, counter := om2.order_counter + 1 + 1 } : OrderId) ≠
        { stamp := now, counter := om.order_counter + 1 } := by
      intro hc2
      have hc3 := congrArg OrderId.counter hc2
      simp only at hc3
      omega
    have H3 := process_fill_market_spec om2
      { stamp := now, counter := om.order_counter + 1 } o2 price none now
      { stamp := now, counter := om2.order_counter + 1 }
      { stamp := now, counter := om2.order_counter + 1 + 1 }
      rfl rfl hlook2 (by rw [ho2]) (by rw [ho2]) hP (by rw [ho2]) hne1 hne2
    rw [H3.2.2.1, hcc]

/-- C10: the attach_stops flag of create_market_order is dead (both values
give identical results); a successful close fills the closing order and,
at a NONZERO closing price, synthesizes a fresh protective pair (the
claim's "regardless" clause fails at price 0, where the fill-price
truthiness guard skips attachment); and after the close the asset has no
active stop-loss or take-profit order, because the cancellation loop runs
on a snapshot taken after the closing fill. Invariant hypotheses hold in
every manager-reachable state. -/
theorem closePosition_clears_protective_orders (s : TSState) (asset : String)
    (price : ℚ) (now : Nat) (pos : ActivePos)
    (hap : alistLookup s.active_positions asset = some pos)
    (hasset : asset ≠ "")
    (hai : ActiveInv s.om) (hsym : RelSymm s.om)
    (hcb : CounterBound s.om) (hid : IdMatch s.om) :
    (close_position s asset price now).2.isSome = true ∧
    NoActiveProtective (close_position s asset price now).1.om asset ∧
    (price ≠ 0 → (close_position s asset price now).1.om.order_counter =
      s.om.order_counter + 3) ∧
    (∀ (om2 : OMState) (a2 : String) (sd : OrderSide) (sz : ℚ) (n : Nat),
      create_market_order om2 a2 sd sz true n =
        create_market_order om2 a2 sd sz false n) := by
  obtain ⟨hom, hsome⟩ := close_position_om_eq s asset price now pos hap
  obtain ⟨hnap, hcnt⟩ := closeFlowOM_props s.om asset
    (if pos.side = OrderSide.buy then OrderSide.sell else OrderSide.buy)
    pos.size pos.entry_price price now hasset hai hsym hcb hid
  refine ⟨hsome, ?_, ?_, fun om2 a2 sd sz n => rfl⟩
  · rw [hom]
    exact hnap
  · intro hP
    rw [hom]
    exact hcnt hP

/-- C10 counterexample to the "regardless of the flag's value" clause:
closing the sample position at price 0 succeeds, yet the closing fill
attaches no protective pair (the order counter advances by 1, for the
closing order alone, instead of 3). -/
theorem closePosition_zero_price_synthesizes_no_pair :
    (close_position sampleTS "BTC/USD" 0 9).2.isSome = true ∧
    (close_position sampleTS "BTC/USD" 0 9).1.om.order_counter =
      sampleTS.om.order_counter + 1 := by
  constructor
  · simp [close_position, sampleTS, alistLookup]
  · simp [close_position, cancelStops, get_active_orders, process_fill,
      attach_stop_orders, create_market_order, generate_order_id, Order.post_init,
      alistInsert, alistLookup, listRemove, setAdd, fillsAppend, sampleTS,
      sampleHeldOrder, sampleConfig]

/-- Witness for C10: closing the sample BTC/USD position at 95 succeeds,
leaves no active protective order for BTC/USD, and advances the order
counter by 3 (closing order plus the synthesized pair). -/
theorem closePosition_clears_protective_orders_witness :
    (close_position sampleTS "BTC/USD" 95 9).2.isSome = true ∧
    NoActiveProtective (close_position sampleTS "BTC/USD" 95 9).1.om "BTC/USD" ∧
    (close_position sampleTS "BTC/USD" 95 9).1.om.order_counter =
      sampleTS.om.order_counter + 3 := by
  have hap : alistLookup sampleTS.active_positions "BTC/USD" =
      some { order_id := ⟨1, 1⟩, side := OrderSide.buy, size := 1,
             entry_price := 100 } := by
    simp [sampleTS, alistLookup]
  have hai : ActiveInv sampleTS.om := by
    intro id hmem
    simp [sampleTS] at hmem
  have hsym : RelSymm sampleTS.om := by
    intro a oa b ob ha hmem hb
    have ha2 : (if (⟨1, 1⟩ : OrderId) = a then some sampleHeldOrder else none) =
        some oa := ha
    by_cases hax : (⟨1, 1⟩ : OrderId) = a
    · rw [if_pos hax] at ha2
      rw [← Option.some.inj ha2] at hmem
      simp [sampleHeldOrder] at hmem
    · rw [if_neg hax] at ha2
      cases ha2
  have hcb : CounterBound sampleTS.om := by
    intro a oa ha
    have ha2 : (if (⟨1, 1⟩ : OrderId) = a then some sampleHeldOrder else none) =
        some oa := ha
    by_cases hax : (⟨1, 1⟩ : OrderId) = a
    · rw [if_pos hax] at ha2
      constructor
      · rw [← hax]
        exact le_refl 1
      · intro b hb
        rw [← Option.some.inj ha2] at hb
        simp [sampleHeldOrder] at hb
    · rw [if_neg hax] at ha2
      cases ha2
  have hid : IdMatch sampleTS.om := by
    intro a oa ha
    have ha2 : (if (⟨1, 1⟩ : OrderId) = a then some sampleHeldOrder else none) =
        some oa := ha
    by_cases hax : (⟨1, 1⟩ : OrderId) = a
    · rw [if_pos hax] at ha2
      rw [← Option.some.inj ha2, ← hax]
      rfl
    · rw [if_neg hax] at ha2
      cases ha2
  have H := closePosition_clears_protective_orders sampleTS "BTC/USD" 95 9
    { order_id := ⟨1, 1⟩, side := OrderSide.buy, size := 1, entry_price := 100 }
    hap (by decide) hai hsym hcb hid
  exact ⟨H.1, H.2.1, H.2.2.1 (by norm_num)⟩

end Trading
